import Mathlib

/-!
Verification of the video-processing pipeline and hybrid search engine of the
`fid` repository, as a shallow embedding in Lean.

Numbers that are JavaScript floats in the source (similarity scores, channel
weights, timestamps, durations) are modelled as rationals; external
collaborators (FFmpeg, Whisper, Groq, OpenAI, Replicate, the Convex vector
indexes) are modelled as oracle parameters supplying their outcomes.
-/

namespace Fid

/-! ### Hybrid search data (convex/actions/search.ts) -/

/-- `FrameMatch` from search.ts: one frame-level vector-search hit.  `score`
is already multiplied by the channel weight at construction time. -/
structure FrameMatch where
  frameId : String
  videoId : String
  timestamp : ℚ
  score : ℚ
  source : String
  description : Option String := none
  keywords : Option (List String) := none
  thumbnailUrl : Option String := none
  deriving DecidableEq, Repr

/-- `VideoMatch` from search.ts: one video-level vector-search hit. -/
structure VideoMatch where
  videoId : String
  filename : String
  score : ℚ
  source : String
  transcript : Option String := none
  summary : Option String := none
  deriving DecidableEq, Repr

/-- One entry of `SearchResult.matches` in search.ts (a clustered time range). -/
structure MatchRange where
  startTime : ℚ
  endTime : ℚ
  confidence : ℚ
  previewUrl : Option String := none
  sources : List String := []
  description : Option String := none
  deriving DecidableEq, Repr

/-- `SearchResult` from search.ts. -/
structure SearchResult where
  videoId : String
  filename : String
  videoUrl : Option String := none
  «matches» : List MatchRange := []
  overallScore : ℚ
  deriving DecidableEq, Repr

/-- Per-channel weights of the hybrid search. -/
structure Weights where
  image : ℚ
  keywords : ℚ
  transcript : ℚ
  summary : ℚ
  deriving DecidableEq, Repr

/-- `DEFAULT_WEIGHTS` from search.ts. -/
def DEFAULT_WEIGHTS : Weights :=
  { image := 35/100, keywords := 30/100, transcript := 20/100, summary := 15/100 }

/-- Stable insertion of `x` after every already-placed element `y` with
`le y x` (so elements comparing equal keep their original order). -/
def insertSorted (le : α → α → Bool) (x : α) : List α → List α
  | [] => [x]
  | y :: ys => if le y x then y :: insertSorted le x ys else x :: y :: ys

/-- JavaScript `Array.prototype.sort` with a comparator `(a, b) => key a - key b`:
a stable ascending sort, modelled as a structurally recursive stable
insertion sort (each element is inserted after earlier equal elements). -/
def stableSort (le : α → α → Bool) (l : List α) : List α :=
  l.foldl (fun acc x => insertSorted le x acc) []

/-! ### Temporal clustering (`clusterTimestamps` in search.ts) -/

/-- A cluster under construction inside `clusterTimestamps` (before its
`avgScore` is computed). -/
structure RawCluster where
  startTime : ℚ
  endTime : ℚ
  frames : List FrameMatch
  deriving DecidableEq, Repr

/-- A finished cluster as returned by `clusterTimestamps`. -/
structure Cluster where
  startTime : ℚ
  endTime : ℚ
  avgScore : ℚ
  frames : List FrameMatch
  deriving DecidableEq, Repr

/-- Sum of the (already weighted) scores of a list of frame matches:
`frames.reduce((sum, f) => sum + f.score, 0)`. -/
def sumScores (fs : List FrameMatch) : ℚ :=
  fs.foldl (fun acc f => acc + f.score) 0

/-- Closing a cluster in search.ts: attach the arithmetic mean of the member
scores as `avgScore`. -/
def closeCluster (c : RawCluster) : Cluster :=
  { startTime := c.startTime
    endTime := c.endTime
    avgScore := sumScores c.frames / (c.frames.length : ℚ)
    frames := c.frames }

/-- The `for` loop of `clusterTimestamps`: walk the sorted matches, extending
the current cluster when the gap from its end is ≤ `maxGap`, otherwise closing
it and starting a new one. -/
def clusterWalk (maxGap : ℚ) : RawCluster → List FrameMatch → List Cluster
  | cur, [] => [closeCluster cur]
  | cur, f :: rest =>
      if f.timestamp - cur.endTime ≤ maxGap then
        clusterWalk maxGap { cur with endTime := f.timestamp, frames := cur.frames ++ [f] } rest
      else
        closeCluster cur ::
          clusterWalk maxGap { startTime := f.timestamp, endTime := f.timestamp, frames := [f] } rest

/-- `clusterTimestamps(frames, maxGap = 5)` from search.ts.  The JavaScript
`sort((a, b) => a.timestamp - b.timestamp)` is a stable ascending sort. -/
def clusterTimestamps (frames : List FrameMatch) (maxGap : ℚ := 5) : List Cluster :=
  match stableSort (fun a b => a.timestamp ≤ b.timestamp) frames with
  | [] => []
  | f :: rest =>
      clusterWalk maxGap { startTime := f.timestamp, endTime := f.timestamp, frames := [f] } rest

/-! ### Fusion (`aggregateResults` in search.ts) -/

/-- The per-video accumulator stored in the `videoScores` map. -/
structure VideoData where
  filename : String
  totalScore : ℚ
  sources : List String
  frames : List FrameMatch
  deriving DecidableEq, Repr

/-- A JavaScript `Map` keyed by video id, as an insertion-ordered association
list. -/
abbrev VMap := List (String × VideoData)

/-- `Map.get`. -/
def vmapFind (m : VMap) (k : String) : Option VideoData :=
  (m.find? (fun p => p.1 = k)).map Prod.snd

/-- Updating the entry at an existing key in place. -/
def vmapUpdate (m : VMap) (k : String) (f : VideoData → VideoData) : VMap :=
  m.map (fun p => if p.1 = k then (p.1, f p.2) else p)

/-- `Set.add`: JavaScript `Set` keeps insertion order and ignores duplicates. -/
def setAdd (s : List String) (x : String) : List String :=
  if x ∈ s then s else s ++ [x]

/-- `[...new Set(xs)]`: deduplicate keeping first occurrences. -/
def setOfList (xs : List String) : List String :=
  xs.foldl setAdd []

/-- The fresh map entry created for a video first seen through a frame match. -/
def emptyVD : VideoData :=
  { filename := "", totalScore := 0, sources := [], frames := [] }

/-- The in-place updates applied to a map entry for one frame match. -/
def bumpF (d : VideoData) (fm : FrameMatch) : VideoData :=
  { d with
    totalScore := d.totalScore + fm.score
    sources := setAdd d.sources fm.source
    frames := d.frames ++ [fm] }

/-- The in-place updates applied to a map entry for one video match. -/
def bumpV (d : VideoData) (vm : VideoMatch) : VideoData :=
  { d with
    filename := vm.filename
    totalScore := d.totalScore + vm.score
    sources := setAdd d.sources vm.source }

/-- Processing one frame match in `aggregateResults`: create the map entry if
missing, then add the weighted score, the source and the frame. -/
def addFrameMatch (m : VMap) (fm : FrameMatch) : VMap :=
  let m' := if (vmapFind m fm.videoId).isSome then m
    else m ++ [(fm.videoId, emptyVD)]
  vmapUpdate m' fm.videoId (fun d => bumpF d fm)

/-- Processing one video match in `aggregateResults`. -/
def addVideoMatch (m : VMap) (vm : VideoMatch) : VMap :=
  let m' := if (vmapFind m vm.videoId).isSome then m
    else m ++ [(vm.videoId, { filename := vm.filename, totalScore := 0, sources := [], frames := [] })]
  vmapUpdate m' vm.videoId (fun d => bumpV d vm)

/-- Converting one cluster into a `matches` entry of a `SearchResult`: the
confidence is the cluster average, the preview and description come from the
first member, the sources are the deduplicated member channels. -/
def clusterToRange (c : Cluster) : MatchRange :=
  { startTime := c.startTime
    endTime := c.endTime
    confidence := c.avgScore
    previewUrl := c.frames.head?.bind (fun f => f.thumbnailUrl)
    sources := setOfList (c.frames.map (fun f => f.source))
    description := c.frames.head?.bind (fun f => f.description) }

/-- Converting one map entry into a `SearchResult` (the final loop of
`aggregateResults`). -/
def toSearchResult (p : String × VideoData) : SearchResult :=
  { videoId := p.1
    filename := p.2.filename
    videoUrl := none
    «matches» := (clusterTimestamps p.2.frames).map clusterToRange
    overallScore := p.2.totalScore }

/-- `aggregateResults(frameMatches, videoMatches)` from search.ts. -/
def aggregateResults (frameMatches : List FrameMatch) (videoMatches : List VideoMatch) :
    List SearchResult :=
  let m := frameMatches.foldl addFrameMatch []
  let m := videoMatches.foldl addVideoMatch m
  m.map toSearchResult

/-! ### The hybrid search action (`hybridSearch` in search.ts) -/

/-- A frame document as returned by the `frames.getFrame` query. -/
structure FrameDoc where
  videoId : String
  timestamp : ℚ
  description : Option String := none
  keywords : Option (List String) := none
  url : Option String := none
  deriving DecidableEq, Repr

/-- A video document as returned by the `videos.getVideo` query. -/
structure VideoDoc where
  filename : String
  transcript : Option String := none
  summary : Option String := none
  url : Option String := none
  deriving DecidableEq, Repr

/-- Oracles for everything `hybridSearch` consumes: the two query-embedding
collaborators (which may fail) and the four Convex vector indexes (vector and
candidate limit to scored document ids; the `status = ready` filter of the
video-level indexes is part of the index oracle), plus document lookup. -/
structure SearchEnv where
  embedText : String → Except String (List ℚ)
  embedTextWithCLIP : String → Except String (List ℚ)
  imageIndex : List ℚ → Nat → List (String × ℚ)
  keywordsIndex : List ℚ → Nat → List (String × ℚ)
  transcriptIndex : List ℚ → Nat → List (String × ℚ)
  summaryIndex : List ℚ → Nat → List (String × ℚ)
  getFrame : String → Option FrameDoc
  getVideo : String → Option VideoDoc

/-- The value returned by the `hybridSearch` action. -/
structure SearchOutput where
  query : String
  results : List SearchResult
  totalMatches : Nat
  deriving DecidableEq, Repr

/-- Build the frame-level matches of one channel: look each scored id up via
`frames.getFrame` (dropping misses) and weight the raw score. -/
def frameChannel (hits : List (String × ℚ)) (w : ℚ) (src : String)
    (env : SearchEnv) : List FrameMatch :=
  hits.filterMap (fun h =>
    (env.getFrame h.1).map (fun f =>
      { frameId := h.1
        videoId := f.videoId
        timestamp := f.timestamp
        score := h.2 * w
        source := src
        description := f.description
        keywords := f.keywords
        thumbnailUrl := f.url }))

/-- Build the video-level matches of one channel. -/
def videoChannel (hits : List (String × ℚ)) (w : ℚ) (src : String)
    (env : SearchEnv) : List VideoMatch :=
  hits.filterMap (fun h =>
    (env.getVideo h.1).map (fun v =>
      { videoId := h.1
        filename := v.filename
        score := h.2 * w
        source := src
        transcript := if src = "transcript" then v.transcript else none
        summary := if src = "summary" then v.summary else none }))

/-- `hybridSearch` from search.ts.  `limitArg` and `weightsArg` are the
optional action arguments; a failing embedding collaborator fails the whole
call (`Except.error`). -/
def hybridSearch (query : String) (limitArg : Option Nat) (weightsArg : Option Weights)
    (env : SearchEnv) : Except String SearchOutput := do
  let weights := weightsArg.getD DEFAULT_WEIGHTS
  let limit := limitArg.getD 20
  let textEmbedding ← env.embedText query
  let clipEmbedding : Option (List ℚ) ←
    if weights.image > 0 then
      (env.embedTextWithCLIP query).map some
    else
      .ok none
  let frameMatches :=
    (match clipEmbedding with
     | some ce =>
         if weights.image > 0 then
           frameChannel (env.imageIndex ce (limit * 2)) weights.image "image" env
         else []
     | none => []) ++
    (if weights.keywords > 0 then
       frameChannel (env.keywordsIndex textEmbedding (limit * 2)) weights.keywords "keywords" env
     else [])
  let videoMatches :=
    (if weights.transcript > 0 then
       videoChannel (env.transcriptIndex textEmbedding 10) weights.transcript "transcript" env
     else []) ++
    (if weights.summary > 0 then
       videoChannel (env.summaryIndex textEmbedding 10) weights.summary "summary" env
     else [])
  let videoResults := aggregateResults frameMatches videoMatches
  let sortedResults :=
    (stableSort (fun a b => b.overallScore ≤ a.overallScore) videoResults).take limit
  let resultsWithUrls := sortedResults.map (fun r =>
    match env.getVideo r.videoId with
    | some v => { r with videoUrl := v.url, filename := v.filename }
    | none => { r with videoUrl := none })
  return { query := query
           results := resultsWithUrls
           totalMatches := frameMatches.length + videoMatches.length }

/-! ### Data model (convex/schema.ts) -/

/-- The `status` union of the videos table. -/
inductive VideoStatus
  | uploading
  | processing
  | ready
  | failed
  deriving DecidableEq, Repr

/-- The `processingSteps` object of a video row. -/
structure ProcessingSteps where
  framesExtracted : Bool
  framesAnalyzed : Bool
  transcribed : Bool
  embedded : Bool
  deriving DecidableEq, Repr

/-- All-false flags, as set by `createVideo`. -/
def ProcessingSteps.init : ProcessingSteps :=
  { framesExtracted := false, framesAnalyzed := false, transcribed := false, embedded := false }

/-- The `step` literal union accepted by `videos.updateProcessingStep`. -/
inductive StepName
  | framesExtracted
  | framesAnalyzed
  | transcribed
  | embedded
  deriving DecidableEq, Repr

/-- `{...processingSteps, [args.step]: args.value}`. -/
def ProcessingSteps.set (ps : ProcessingSteps) (step : StepName) (value : Bool) :
    ProcessingSteps :=
  match step with
  | .framesExtracted => { ps with framesExtracted := value }
  | .framesAnalyzed => { ps with framesAnalyzed := value }
  | .transcribed => { ps with transcribed := value }
  | .embedded => { ps with embedded := value }

/-- A row of the frames table (storage id elided; `id` is the document id). -/
structure FrameRow where
  id : Nat
  timestamp : ℚ
  description : Option String := none
  keywords : Option (List String) := none
  imageEmbedding : Option (List ℚ) := none
  keywordsEmbedding : Option (List ℚ) := none
  deriving DecidableEq, Repr

/-- A row of the videos table (storage id elided). -/
structure VideoRow where
  filename : String
  status : VideoStatus
  duration : Option ℚ := none
  processingSteps : ProcessingSteps := .init
  transcript : Option String := none
  summary : Option String := none
  transcriptEmbedding : Option (List ℚ) := none
  summaryEmbedding : Option (List ℚ) := none
  groqKeywords : Option (List String) := none
  groqCategories : Option (List String) := none
  deriving DecidableEq, Repr

/-- The observable state of one video and its frames, together with two
instrumentation fields: the sequence of `updateVideoStatus` writes and the
number of external embedding-collaborator calls made so far. -/
structure PipelineState where
  video : VideoRow
  frames : List FrameRow := []
  nextId : Nat := 0
  statusWrites : List VideoStatus := []
  embedCalls : Nat := 0
  deriving DecidableEq, Repr

/-! ### Mutations (convex/videos.ts and convex/frames.ts) -/

/-- `videos.createVideo`: insert a video in status `uploading` with all four
processing flags false. -/
def createVideo (filename : String) : PipelineState :=
  { video := { filename := filename, status := .uploading, processingSteps := .init } }

/-- `videos.updateVideoStatus`. -/
def updateVideoStatus (st : VideoStatus) (s : PipelineState) : PipelineState :=
  { s with video := { s.video with status := st }, statusWrites := s.statusWrites ++ [st] }

/-- `videos.updateProcessingStep`: overwrite the one named flag with `value`. -/
def updateProcessingStep (step : StepName) (value : Bool) (s : PipelineState) : PipelineState :=
  { s with video := { s.video with processingSteps := s.video.processingSteps.set step value } }

/-- `videos.storeTranscript` (patches `transcript` and `duration`). -/
def storeTranscript (t : String) (dur : Option ℚ) (s : PipelineState) : PipelineState :=
  { s with video := { s.video with transcript := some t, duration := dur } }

/-- `videos.storeGroqAnalysis` (patches `summary` and `groqAnalysis`). -/
def storeGroqAnalysis (summary : String) (kws cats : List String) (s : PipelineState) :
    PipelineState :=
  { s with video := { s.video with
      summary := some summary, groqKeywords := some kws, groqCategories := some cats } }

/-- `videos.updateVideoDuration`. -/
def updateVideoDuration (d : ℚ) (s : PipelineState) : PipelineState :=
  { s with video := { s.video with duration := some d } }

/-- `videos.storeVideoEmbeddings`: patch only the embedding fields actually
supplied (the JS `if (args.transcriptEmbedding)` guards). -/
def storeVideoEmbeddings (te se : Option (List ℚ)) (s : PipelineState) : PipelineState :=
  let v := s.video
  let v := match te with
    | some e => { v with transcriptEmbedding := some e }
    | none => v
  let v := match se with
    | some e => { v with summaryEmbedding := some e }
    | none => v
  { s with video := v }

/-- Patch one frame row with the supplied embedding fields (the body of
`frames.updateFrameEmbeddings` for the matching row). -/
def patchFrameEmbeddings (img kw : Option (List ℚ)) (f : FrameRow) : FrameRow :=
  let f := match img with
    | some e => { f with imageEmbedding := some e }
    | none => f
  match kw with
  | some e => { f with keywordsEmbedding := some e }
  | none => f

/-- `frames.updateFrameEmbeddings`: patch only the embedding fields actually
supplied on the addressed frame. -/
def updateFrameEmbeddings (frameId : Nat) (img kw : Option (List ℚ)) (s : PipelineState) :
    PipelineState :=
  { s with frames := s.frames.map (fun f =>
      if f.id = frameId then patchFrameEmbeddings img kw f else f) }

/-- `frames.createFramesBatch`: insert one frame row per timestamp. -/
def createFramesBatch (ts : List ℚ) (s : PipelineState) : PipelineState :=
  ts.foldl (fun st t =>
    { st with
      frames := st.frames ++ [{ id := st.nextId, timestamp := t }]
      nextId := st.nextId + 1 }) s

/-- `frames.getFramesWithoutEmbeddings`: the frames of the video lacking an
`imageEmbedding`, optionally truncated (`args.limit ? slice : all`, so a limit
of `0` is falsy and means no truncation). -/
def getFramesWithoutEmbeddings (s : PipelineState) (limit : Option Nat) : List FrameRow :=
  let unembedded := s.frames.filter (fun f => f.imageEmbedding.isNone)
  match limit with
  | some n => if n = 0 then unembedded else unembedded.take n
  | none => unembedded

/-! ### Collaborator oracles for the pipeline -/

/-- Outcomes of the external collaborators a pipeline run consumes: FFmpeg
frame extraction (number of frames produced), Groq Whisper, Groq Llama
analysis (summary, keywords, categories, after JSON parsing), OpenAI text
embedding keyed by input text, GPT-4o-mini vision description and CLIP
embedding keyed by frame id. -/
structure PipelineEnv where
  extractOutcome : Except String Nat
  transcribeOutcome : Except String (String × Option ℚ)
  analyzeOutcome : Except String (String × List String × List String)
  textEmbed : String → Except String (List ℚ)
  visionDescribe : Nat → Except String String
  clipEmbed : Nat → Except String (List ℚ)

/-- Record one call to an external embedding collaborator. -/
def callEmbed (s : PipelineState) : PipelineState :=
  { s with embedCalls := s.embedCalls + 1 }

/-! ### Stage actions -/

/-- `actions/frameExtraction.extractFrames`: on FFmpeg success with `n`
frames, insert rows at timestamps `0, I, …, (n-1)·I`, set `framesExtracted`,
and store the estimated duration `(n-1)·I`; all internal errors are caught and
reported as `success: false`. -/
def extractFrames (env : PipelineEnv) (interval : ℚ) (s : PipelineState) :
    (Bool × Option Nat × Option String) × PipelineState :=
  match env.extractOutcome with
  | .error e => ((false, none, some e), s)
  | .ok n =>
      let s1 := if 0 < n then
          createFramesBatch ((List.range n).map (fun i : Nat => (i : ℚ) * interval)) s
        else s
      let s2 := updateProcessingStep .framesExtracted true s1
      let s3 := if 0 < n then updateVideoDuration (((n - 1 : Nat) : ℚ) * interval) s2 else s2
      ((true, some n, none), s3)

/-- `actions/transcription.transcribeVideo`: store the transcript and duration
and set `transcribed`; collaborator failure escapes as an exception. -/
def transcribeVideo (env : PipelineEnv) (s : PipelineState) :
    Except String Unit × PipelineState :=
  match env.transcribeOutcome with
  | .error e => (.error e, s)
  | .ok (t, d) => (.ok (), updateProcessingStep .transcribed true (storeTranscript t d s))

/-- `actions/groqAnalysis.analyzeTranscript`: requires a stored non-empty
transcript (the JS guard `if (!video.transcript) throw` is falsy for both a
missing and an empty-string transcript); stores the summary and analysis.  It
sets no processing flag. -/
def analyzeTranscript (env : PipelineEnv) (s : PipelineState) :
    Except String Unit × PipelineState :=
  match s.video.transcript with
  | none => (.error "Video has no transcript. Run transcription first.", s)
  | some t =>
      if t = "" then (.error "Video has no transcript. Run transcription first.", s)
      else
        match env.analyzeOutcome with
        | .error e => (.error e, s)
        | .ok (sum, kws, cats) => (.ok (), storeGroqAnalysis sum kws cats s)

/-- `actions/embeddings.embedFrameKeywords`: embed the joined keywords of one
frame and store the result as `keywordsEmbedding`. -/
def embedFrameKeywords (env : PipelineEnv) (fid : Nat) (s : PipelineState) :
    Except String Unit × PipelineState :=
  match s.frames.find? (fun f => f.id = fid) with
  | none => (.error "Frame not found", s)
  | some f =>
      match f.keywords with
      | none => (.error "Frame has no keywords", s)
      | some ks =>
          if ks.isEmpty then (.error "Frame has no keywords", s)
          else
            let s1 := callEmbed s
            match env.textEmbed (String.intercalate ", " ks) with
            | .error e => (.error e, s1)
            | .ok emb => (.ok (), updateFrameEmbeddings fid none (some emb) s1)

/-- `actions/embeddings.embedFrameImageWithOpenAI`: describe the frame with
GPT-4o-mini, embed the description, store it as `imageEmbedding`. -/
def embedFrameImageWithOpenAI (env : PipelineEnv) (fid : Nat) (s : PipelineState) :
    Except String Unit × PipelineState :=
  match s.frames.find? (fun f => f.id = fid) with
  | none => (.error "Frame not found or has no URL", s)
  | some _ =>
      let s1 := callEmbed s
      match env.visionDescribe fid with
      | .error e => (.error e, s1)
      | .ok desc =>
          let s2 := callEmbed s1
          match env.textEmbed desc with
          | .error e => (.error e, s2)
          | .ok emb => (.ok (), updateFrameEmbeddings fid (some emb) none s2)

/-- `actions/embeddings.embedFrameImage`: CLIP-embed the frame image and store
it as `imageEmbedding`. -/
def embedFrameImage (env : PipelineEnv) (fid : Nat) (s : PipelineState) :
    Except String Unit × PipelineState :=
  match s.frames.find? (fun f => f.id = fid) with
  | none => (.error "Frame not found or has no URL", s)
  | some _ =>
      let s1 := callEmbed s
      match env.clipEmbed fid with
      | .error e => (.error e, s1)
      | .ok emb => (.ok (), updateFrameEmbeddings fid (some emb) none s1)

/-- The `try` body of the per-frame loop in `embedVideoFrames`: keywords
embedding when keywords are present, then image embedding when requested; any
error is caught by the caller, keeping the partial writes. -/
def embedOneFrame (env : PipelineEnv) (embedImages useOpenAIVision : Bool) (f : FrameRow)
    (s : PipelineState) : (Bool × Option String) × PipelineState :=
  let kwStep : Except String Unit × PipelineState :=
    match f.keywords with
    | some ks => if ks.isEmpty then (.ok (), s) else embedFrameKeywords env f.id s
    | none => (.ok (), s)
  match kwStep with
  | (.error e, s1) => ((false, some e), s1)
  | (.ok _, s1) =>
      if embedImages then
        match (if useOpenAIVision then embedFrameImageWithOpenAI env f.id s1
               else embedFrameImage env f.id s1) with
        | (.error e, s2) => ((false, some e), s2)
        | (.ok _, s2) => ((true, none), s2)
      else ((true, none), s1)

/-- The value returned by `embedVideoFrames`. -/
structure EmbedFramesResult where
  success : Bool
  embedded : Nat
  failed : Nat := 0
  message : Option String := none
  results : List (Nat × Bool × Option String) := []
  deriving DecidableEq, Repr

/-- The `for` loop of `embedVideoFrames`, accumulating the per-frame result
entries and threading the state. -/
def embedLoop (env : PipelineEnv) (embedImages useOpenAIVision : Bool)
    (fs : List FrameRow) (acc : List (Nat × Bool × Option String) × PipelineState) :
    List (Nat × Bool × Option String) × PipelineState :=
  fs.foldl
    (fun acc f =>
      let ((ok, err), st') := embedOneFrame env embedImages useOpenAIVision f acc.2
      (acc.1 ++ [(f.id, ok, err)], st'))
    acc

/-- `actions/embeddings.embedVideoFrames`: process every frame lacking an
`imageEmbedding`, catching per-frame errors into the `results` list; if no
frame lacks one, return immediately; afterwards set the `embedded` flag iff
no frame lacks an `imageEmbedding` any more.  Always returns `success: true`. -/
def embedVideoFrames (env : PipelineEnv) (embedImages useOpenAIVision : Bool)
    (limit : Option Nat) (s : PipelineState) : EmbedFramesResult × PipelineState :=
  let frames := getFramesWithoutEmbeddings s limit
  if frames.isEmpty then
    ({ success := true, embedded := 0, message := some "No frames to embed" }, s)
  else
    let (results, s1) := embedLoop env embedImages useOpenAIVision frames ([], s)
    let successCount := (results.filter (fun r => r.2.1)).length
    let remaining := getFramesWithoutEmbeddings s1 none
    let s2 := if remaining.isEmpty then updateProcessingStep .embedded true s1 else s1
    ({ success := true
       embedded := successCount
       failed := results.length - successCount
       results := results }, s2)

/-- `actions/embeddings.embedVideoText`: embed the transcript (first 8000
characters) and the summary when present and non-empty (the JS guards
`if (video.transcript)` / `if (video.summary)` are falsy for a missing and for
an empty-string value), and store whichever were produced; an embedding
failure escapes as an exception. -/
def embedVideoText (env : PipelineEnv) (s : PipelineState) :
    Except String Unit × PipelineState :=
  let tStep : Except String (Option (List ℚ)) × PipelineState :=
    match s.video.transcript with
    | none => (.ok none, s)
    | some t =>
        if t = "" then (.ok none, s)
        else
          let s1 := callEmbed s
          match env.textEmbed (t.take 8000) with
          | .error e => (.error e, s1)
          | .ok emb => (.ok (some emb), s1)
  match tStep with
  | (.error e, s1) => (.error e, s1)
  | (.ok te, s1) =>
      let sStep : Except String (Option (List ℚ)) × PipelineState :=
        match s1.video.summary with
        | none => (.ok none, s1)
        | some sum =>
            if sum = "" then (.ok none, s1)
            else
              let s2 := callEmbed s1
              match env.textEmbed sum with
              | .error e => (.error e, s2)
              | .ok emb => (.ok (some emb), s2)
      match sStep with
      | (.error e, s2) => (.error e, s2)
      | (.ok se, s2) =>
          if te.isSome || se.isSome then (.ok (), storeVideoEmbeddings te se s2)
          else (.ok (), s2)

/-! ### The pipeline orchestrators (convex/processing.ts) -/

/-- `processing.processVideo` (fast path): set `processing`, extract frames at
a 10-second interval, then `ready`, or `failed` when extraction reports
failure. -/
def processVideo (env : PipelineEnv) (s : PipelineState) : PipelineState :=
  let s := updateVideoStatus .processing s
  let (r, s1) := extractFrames env 10 s
  if r.1 then updateVideoStatus .ready s1 else updateVideoStatus .failed s1

/-- `processing.processVideoFull` (full path): extract → transcribe → analyze
→ embed frames (OpenAI Vision) → embed text → `ready`; any stage exception is
caught once at the orchestrator and turned into a single `failed` status
write, skipping the remaining stages. -/
def processVideoFull (env : PipelineEnv) (s : PipelineState) : PipelineState :=
  let s := updateVideoStatus .processing s
  let (r, s1) := extractFrames env 10 s
  if !r.1 then updateVideoStatus .failed s1 else
  match transcribeVideo env s1 with
  | (.error _, s2) => updateVideoStatus .failed s2
  | (.ok _, s2) =>
      match analyzeTranscript env s2 with
      | (.error _, s3) => updateVideoStatus .failed s3
      | (.ok _, s3) =>
          let (_, s4) := embedVideoFrames env true true none s3
          match embedVideoText env s4 with
          | (.error _, s5) => updateVideoStatus .failed s5
          | (.ok _, s5) => updateVideoStatus .ready s5

/-! ### Frame timestamp recommendation (`getFrameTimestamps`) -/

/-- `actions/frameExtraction.getFrameTimestamps(duration, intervalSeconds)`:
`frameCount = Math.ceil(duration / interval)` timestamps `i·interval`. -/
def getFrameTimestamps (duration : ℚ) (intervalSeconds : Option ℚ) :
    ℚ × Nat × List ℚ :=
  let interval := intervalSeconds.getD 2
  let frameCount := (⌈duration / interval⌉).toNat
  (interval, frameCount, (List.range frameCount).map (fun i : Nat => (i : ℚ) * interval))

/-! ### Helper lemmas -/

/-- The frame rows inserted by `createFramesBatch` starting at a given id. -/
def buildRows : Nat → List ℚ → List FrameRow
  | _, [] => []
  | i, t :: ts => { id := i, timestamp := t } :: buildRows (i + 1) ts

/-- A pipeline environment in which every collaborator succeeds, used by the
witnesses. -/
def okEnv : PipelineEnv :=
  { extractOutcome := .ok 2
    transcribeOutcome := .ok ("hello world", some 42)
    analyzeOutcome := .ok ("a summary", ["cats", "dogs"], ["vlog"])
    textEmbed := fun _ => .ok [1, 2]
    visionDescribe := fun _ => .ok "a frame"
    clipEmbed := fun _ => .ok [3] }

/-- The fields of a frame row never touched by embedding writes. -/
def FrameRow.core (f : FrameRow) : Nat × ℚ × Option String × Option (List String) :=
  (f.id, f.timestamp, f.description, f.keywords)

/-- `s'` differs from `s` at most in frame embeddings and the call counter:
the video record, the status-write trace and the non-embedding frame fields
are unchanged. -/
def FramesOnly (s s' : PipelineState) : Prop :=
  s'.video = s.video ∧ s'.statusWrites = s.statusWrites ∧
  s'.frames.map FrameRow.core = s.frames.map FrameRow.core

/-- The collaborator call succeeded. -/
def ExceptOk {ε α : Type} (x : Except ε α) : Prop := ∃ a, x = .ok a

/-- Pointwise ordering of flag records: no flag that is true on the left is
false on the right. -/
def stepsLe (a b : ProcessingSteps) : Prop :=
  (a.framesExtracted = true → b.framesExtracted = true) ∧
  (a.framesAnalyzed = true → b.framesAnalyzed = true) ∧
  (a.transcribed = true → b.transcribed = true) ∧
  (a.embedded = true → b.embedded = true)

/-- Applying a run of frame matches to one map entry. -/
def applyFM (d : VideoData) (fs : List FrameMatch) : VideoData := fs.foldl bumpF d

/-- Applying a run of video matches to one map entry. -/
def applyVM (d : VideoData) (vs : List VideoMatch) : VideoData := vs.foldl bumpV d

/-- Sum of the weighted scores of a list of video matches. -/
def sumVMScores (vs : List VideoMatch) : ℚ := vs.foldl (fun acc v => acc + v.score) 0

/-- A concrete search environment realizing the spec's fusion-arithmetic
example: video A matched on image (raw 0.9) and keywords (raw 0.8), video B
matched only on summary (raw 0.95). -/
def c1Env : SearchEnv :=
  { embedText := fun _ => .ok [1]
    embedTextWithCLIP := fun _ => .ok [2]
    imageIndex := fun _ _ => [("f1", 9/10)]
    keywordsIndex := fun _ _ => [("f2", 8/10)]
    transcriptIndex := fun _ _ => []
    summaryIndex := fun _ _ => [("B", 95/100)]
    getFrame := fun id =>
      if id = "f1" then some { videoId := "A", timestamp := 0 }
      else if id = "f2" then some { videoId := "A", timestamp := 3 }
      else none
    getVideo := fun id =>
      if id = "A" then some { filename := "a.mp4" }
      else if id = "B" then some { filename := "b.mp4" }
      else none }

/-- The single frame match of C1's witness instance. -/
def c1wFM : FrameMatch :=
  { frameId := "f", videoId := "A", timestamp := 0, score := 2, source := "image" }

/-- The expected search result of C1's witness instance. -/
def c1wResult : SearchResult :=
  { videoId := "A"
    filename := ""
    videoUrl := none
    «matches» := [{ startTime := 0, endTime := 0, confidence := 2, previewUrl := none, sources := ["image"], description := none }]
    overallScore := 2 }

/-- The invariants of a raw cluster maintained by the `for` loop of
`clusterTimestamps`: the start time is the first member's timestamp, the end
time is the last member's timestamp, and consecutive members are at most
`maxGap` apart. -/
def GoodRaw (g : ℚ) (cur : RawCluster) : Prop :=
  cur.frames.head?.map (fun f => f.timestamp) = some cur.startTime ∧
  cur.frames.getLast?.map (fun f => f.timestamp) = some cur.endTime ∧
  List.Chain' (fun a b => b.timestamp - a.timestamp ≤ g) cur.frames

/-- The shape of every cluster returned by `clusterTimestamps`: nonempty (the
`head?`/`getLast?` equations force it), bounded by its first and last member
timestamps, scored by the arithmetic mean of its members' (weighted) scores,
with consecutive members at most `maxGap` apart. -/
def GoodCluster (g : ℚ) (c : Cluster) : Prop :=
  c.frames.head?.map (fun f => f.timestamp) = some c.startTime ∧
  c.frames.getLast?.map (fun f => f.timestamp) = some c.endTime ∧
  c.avgScore = sumScores c.frames / (c.frames.length : ℚ) ∧
  List.Chain' (fun a b => b.timestamp - a.timestamp ≤ g) c.frames

/-- The five frame matches of the spec's clustering example, with timestamps
`[0, 3, 9, 11, 30]`. -/
def c2Sample : List FrameMatch :=
  [{ frameId := "a", videoId := "V", timestamp := 0, score := 1/2, source := "image" },
   { frameId := "b", videoId := "V", timestamp := 3, score := 1/4, source := "keywords" },
   { frameId := "c", videoId := "V", timestamp := 9, score := 1, source := "image" },
   { frameId := "d", videoId := "V", timestamp := 11, score := 1/2, source := "keywords" },
   { frameId := "e", videoId := "V", timestamp := 30, score := 1, source := "image" }]

/-- The single frame match of C2's witness instance. -/
def c2wFM : FrameMatch :=
  { frameId := "w", videoId := "W", timestamp := 0, score := 3, source := "keywords" }

/-- The single cluster produced for C2's witness instance. -/
def c2wCluster : Cluster :=
  { startTime := 0, endTime := 0, avgScore := 3, frames := [c2wFM] }

/-- The search result produced for C2's witness instance. -/
def c2wSR : SearchResult :=
  { videoId := "W"
    filename := ""
    videoUrl := none
    «matches» := [{ startTime := 0, endTime := 0, confidence := 3, previewUrl := none, sources := ["keywords"], description := none }]
    overallScore := 3 }

theorem createFramesBatch_frames (ts : List ℚ) (s : PipelineState) :
    (createFramesBatch ts s).frames = s.frames ++ buildRows s.nextId ts ∧
    (createFramesBatch ts s).video = s.video ∧
    (createFramesBatch ts s).statusWrites = s.statusWrites ∧
    (createFramesBatch ts s).embedCalls = s.embedCalls := by
  induction ts generalizing s with
  | nil => simp [createFramesBatch, buildRows]
  | cons t ts ih =>
      have h := ih { s with
        frames := s.frames ++ [{ id := s.nextId, timestamp := t }]
        nextId := s.nextId + 1 }
      simpa [createFramesBatch, buildRows, List.foldl_cons, List.append_assoc] using h

theorem buildRows_timestamps (i : Nat) (ts : List ℚ) :
    (buildRows i ts).map (fun f => f.timestamp) = ts := by
  induction ts generalizing i with
  | nil => simp [buildRows]
  | cons t ts ih => simp [buildRows, ih]

theorem buildRows_fresh (i : Nat) (ts : List ℚ) :
    ∀ f ∈ buildRows i ts, f.keywords = none ∧ f.imageEmbedding = none ∧
      f.description = none ∧ f.keywordsEmbedding = none := by
  induction ts generalizing i with
  | nil => simp [buildRows]
  | cons t ts ih =>
      intro f hf
      rcases List.mem_cons.mp hf with h | h
      · simp [h]
      · exact ih (i + 1) f h

theorem embedVideoFrames_of_all_embedded (env : PipelineEnv) (a b : Bool)
    (l : Option Nat) (s : PipelineState)
    (h : ∀ f ∈ s.frames, f.imageEmbedding.isSome) :
    embedVideoFrames env a b l s =
      ({ success := true, embedded := 0, message := some "No frames to embed" }, s) := by
  have hfilter : s.frames.filter (fun f => f.imageEmbedding.isNone) = [] := by
    rw [List.filter_eq_nil_iff]
    intro f hf
    simp [Option.isNone_iff_eq_none]
    exact Option.isSome_iff_ne_none.mp (h f hf)
  have hget : getFramesWithoutEmbeddings s l = [] := by
    unfold getFramesWithoutEmbeddings
    rw [hfilter]
    cases l with
    | none => rfl
    | some n => simp
  unfold embedVideoFrames
  rw [hget]
  rfl

/-! ### Claim theorems (first group) -/

/-- C10: the embedding-storage mutations update only the fields actually
supplied: `storeVideoEmbeddings` with only one of transcript/summary
embedding present patches only that field of the video record, and
`updateFrameEmbeddings` with only one of image/keywords embedding present
patches only that field of the addressed frame record; all other fields and
rows are unchanged. -/
theorem c10_embeddings_patch_only_supplied_fields :
    (∀ (s : PipelineState) (e : List ℚ),
      storeVideoEmbeddings (some e) none s =
        { s with video := { s.video with transcriptEmbedding := some e } }) ∧
    (∀ (s : PipelineState) (e : List ℚ),
      storeVideoEmbeddings none (some e) s =
        { s with video := { s.video with summaryEmbedding := some e } }) ∧
    (∀ (s : PipelineState) (fid : Nat) (e : List ℚ),
      updateFrameEmbeddings fid (some e) none s =
        { s with frames := s.frames.map (fun f =>
            if f.id = fid then { f with imageEmbedding := some e } else f) }) ∧
    (∀ (s : PipelineState) (fid : Nat) (e : List ℚ),
      updateFrameEmbeddings fid none (some e) s =
        { s with frames := s.frames.map (fun f =>
            if f.id = fid then { f with keywordsEmbedding := some e } else f) }) :=
  ⟨fun _ _ => rfl, fun _ _ => rfl, fun _ _ _ => rfl, fun _ _ _ => rfl⟩

/-- C6: invoking `embedVideoFrames` a second time on a state in which every
frame already carries an `imageEmbedding` performs zero embedding-collaborator
calls, returns immediately with `embedded = 0`, and leaves the whole state —
in particular every stored embedding — unchanged. -/
theorem c6_embed_frames_idempotent (env₁ env₂ : PipelineEnv) (a₁ b₁ a₂ b₂ : Bool)
    (l₁ l₂ : Option Nat) (s : PipelineState)
    (h : ∀ f ∈ (embedVideoFrames env₁ a₁ b₁ l₁ s).2.frames, f.imageEmbedding.isSome) :
    embedVideoFrames env₂ a₂ b₂ l₂ (embedVideoFrames env₁ a₁ b₁ l₁ s).2 =
      ({ success := true, embedded := 0, message := some "No frames to embed" },
        (embedVideoFrames env₁ a₁ b₁ l₁ s).2) ∧
    (embedVideoFrames env₂ a₂ b₂ l₂ (embedVideoFrames env₁ a₁ b₁ l₁ s).2).2.embedCalls =
      (embedVideoFrames env₁ a₁ b₁ l₁ s).2.embedCalls := by
  have := embedVideoFrames_of_all_embedded env₂ a₂ b₂ l₂ (embedVideoFrames env₁ a₁ b₁ l₁ s).2 h
  exact ⟨this, by rw [this]⟩

/-- Witness for C6 at a concrete state with one initially unembedded frame. -/
theorem c6_embed_frames_idempotent_witness :
    (∀ f ∈ (embedVideoFrames okEnv true true none
        { video := { filename := "v.mp4", status := .ready },
          frames := [{ id := 0, timestamp := 0 }] }).2.frames,
      f.imageEmbedding.isSome) ∧
    (embedVideoFrames okEnv true true none
        (embedVideoFrames okEnv true true none
          { video := { filename := "v.mp4", status := .ready },
            frames := [{ id := 0, timestamp := 0 }] }).2).2.embedCalls =
      (embedVideoFrames okEnv true true none
        { video := { filename := "v.mp4", status := .ready },
          frames := [{ id := 0, timestamp := 0 }] }).2.embedCalls :=
  ⟨by decide,
    (c6_embed_frames_idempotent okEnv okEnv true true true true none none
      { video := { filename := "v.mp4", status := .ready },
        frames := [{ id := 0, timestamp := 0 }] } (by decide)).2⟩

/-- C7: a hybrid search with all four channel weights 0 returns zero matches
(empty result list, `totalMatches = 0`) without error (assuming the text
Embedder succeeds, which the call always consults first), and the joint
image-text (CLIP) query embedding is not consulted: the outcome is
independent of the CLIP collaborator. -/
theorem c7_zero_weights_zero_matches (q : String) (l : Option Nat) (env : SearchEnv)
    (e : List ℚ) (h : env.embedText q = .ok e) :
    hybridSearch q l (some { image := 0, keywords := 0, transcript := 0, summary := 0 }) env =
      .ok { query := q, results := [], totalMatches := 0 } ∧
    ∀ g, hybridSearch q l (some { image := 0, keywords := 0, transcript := 0, summary := 0 })
        { env with embedTextWithCLIP := g } =
      hybridSearch q l (some { image := 0, keywords := 0, transcript := 0, summary := 0 }) env := by
  have key : ∀ env' : SearchEnv, env'.embedText q = .ok e →
      hybridSearch q l (some { image := 0, keywords := 0, transcript := 0, summary := 0 }) env' =
        .ok { query := q, results := [], totalMatches := 0 } := by
    intro env' h'
    unfold hybridSearch
    simp [h', Bind.bind, Except.bind, Pure.pure, Except.pure, lt_irrefl, aggregateResults,
      stableSort]
  refine ⟨key env h, fun g => ?_⟩
  rw [key env h, key { env with embedTextWithCLIP := g } h]

/-- Witness for C7 at a concrete environment. -/
theorem c7_zero_weights_zero_matches_witness :
    ({ embedText := fun _ => .ok [1]
       embedTextWithCLIP := fun _ => .ok [2]
       imageIndex := fun _ _ => [("f1", 9/10)]
       keywordsIndex := fun _ _ => []
       transcriptIndex := fun _ _ => []
       summaryIndex := fun _ _ => []
       getFrame := fun _ => none
       getVideo := fun _ => none } : SearchEnv).embedText "cats" = .ok [1] ∧
    hybridSearch "cats" none
        (some { image := 0, keywords := 0, transcript := 0, summary := 0 })
        { embedText := fun _ => .ok [1]
          embedTextWithCLIP := fun _ => .ok [2]
          imageIndex := fun _ _ => [("f1", 9/10)]
          keywordsIndex := fun _ _ => []
          transcriptIndex := fun _ _ => []
          summaryIndex := fun _ _ => []
          getFrame := fun _ => none
          getVideo := fun _ => none } =
      .ok { query := "cats", results := [], totalMatches := 0 } :=
  ⟨rfl,
    (c7_zero_weights_zero_matches "cats" none
      { embedText := fun _ => .ok [1]
        embedTextWithCLIP := fun _ => .ok [2]
        imageIndex := fun _ _ => [("f1", 9/10)]
        keywordsIndex := fun _ _ => []
        transcriptIndex := fun _ _ => []
        summaryIndex := fun _ _ => []
        getFrame := fun _ => none
        getVideo := fun _ => none } [1] rfl).1⟩

/-- C5 counterexample: for `duration = 10`, `interval = 5`, the produced
timestamp list is `[0, 5]`, although `10 = 2·5` is a multiple of the interval
with `10 ≤ 10` — so the produced set is not "exactly the multiples of I up to
the last multiple ≤ D". -/
theorem c5_counterexample :
    (getFrameTimestamps 10 (some 5)).2.2 = [0, 5] ∧
    ((10 : ℚ) = ((2 : ℕ) : ℚ) * 5 ∧ (10 : ℚ) ≤ 10) ∧
    (10 : ℚ) ∉ (getFrameTimestamps 10 (some 5)).2.2 := by
  have hceil : ⌈(10 : ℚ) / 5⌉ = 2 := by norm_num
  have hlist : (getFrameTimestamps 10 (some 5)).2.2 = [0, 5] := by
    unfold getFrameTimestamps
    simp only [Option.getD_some, hceil]
    have h2 : Int.toNat 2 = 2 := rfl
    rw [h2]
    norm_num [List.range_succ]
  refine ⟨hlist, ⟨by norm_num, le_refl _⟩, ?_⟩
  rw [hlist]
  norm_num

/-- C5 (amended): for `getFrameTimestamps(D, I)` with `I > 0` the produced
timestamps are exactly the multiples `k·I` with `k·I < D` (so each satisfies
`0 ≤ t < D`, and when `I` divides `D` the endpoint `D` itself is absent); for
the frames stored by `extractFrames` the stored (estimated) duration is
`(n-1)·I` and the produced timestamps are exactly the multiples of `I` up to
the last one ≤ that stored duration. -/
theorem c5_frame_timestamps (D I : ℚ) (hI : 0 < I) :
    (∀ t : ℚ, t ∈ (getFrameTimestamps D (some I)).2.2 ↔
      ∃ k : ℕ, t = (k : ℚ) * I ∧ (k : ℚ) * I < D) ∧
    (∀ t ∈ (getFrameTimestamps D (some I)).2.2, 0 ≤ t ∧ t < D) ∧
    (∀ (env : PipelineEnv) (s : PipelineState) (n : Nat),
      env.extractOutcome = .ok n → 0 < n →
      (extractFrames env I s).2.video.duration = some (((n - 1 : ℕ) : ℚ) * I) ∧
      ((extractFrames env I s).2.frames.map (fun f => f.timestamp)).drop s.frames.length =
        (List.range n).map (fun i : Nat => (i : ℚ) * I) ∧
      (∀ t : ℚ, t ∈ (List.range n).map (fun i : Nat => (i : ℚ) * I) ↔
        ∃ k : ℕ, t = (k : ℚ) * I ∧ (k : ℚ) * I ≤ ((n - 1 : ℕ) : ℚ) * I)) := by
  have hmem : ∀ t : ℚ, t ∈ (getFrameTimestamps D (some I)).2.2 ↔
      ∃ k : ℕ, t = (k : ℚ) * I ∧ (k : ℚ) * I < D := by
    intro t
    unfold getFrameTimestamps
    simp only [Option.getD_some, List.mem_map, List.mem_range]
    constructor
    · rintro ⟨i, hi, rfl⟩
      refine ⟨i, rfl, ?_⟩
      have h1 : (i : ℤ) < ⌈D / I⌉ := Int.lt_toNat.mp hi
      have h2 : (i : ℚ) < D / I := by exact_mod_cast Int.lt_ceil.mp h1
      exact (lt_div_iff₀ hI).mp h2
    · rintro ⟨k, rfl, hk⟩
      refine ⟨k, ?_, rfl⟩
      have h2 : (k : ℚ) < D / I := (lt_div_iff₀ hI).mpr hk
      have h1 : (k : ℤ) < ⌈D / I⌉ := Int.lt_ceil.mpr (by exact_mod_cast h2)
      exact Int.lt_toNat.mpr h1
  refine ⟨hmem, ?_, ?_⟩
  · intro t ht
    rcases (hmem t).mp ht with ⟨k, rfl, hk⟩
    exact ⟨mul_nonneg (Nat.cast_nonneg k) hI.le, hk⟩
  · intro env s n hn hpos
    have hb := createFramesBatch_frames ((List.range n).map (fun i : Nat => (i : ℚ) * I)) s
    constructor
    · unfold extractFrames
      rw [hn]
      simp only [hpos, if_pos]
      rfl
    constructor
    · unfold extractFrames
      rw [hn]
      simp only [hpos, if_pos]
      simp only [updateVideoDuration, updateProcessingStep, hb.1, List.map_append,
        buildRows_timestamps]
      rw [← List.length_map s.frames (fun f => f.timestamp), List.drop_left]
    · intro t
      simp only [List.mem_map, List.mem_range]
      constructor
      · rintro ⟨i, hi, rfl⟩
        refine ⟨i, rfl, ?_⟩
        have hle : i ≤ n - 1 := Nat.le_sub_one_of_lt hi
        exact mul_le_mul_of_nonneg_right (by exact_mod_cast hle) hI.le
      · rintro ⟨k, rfl, hk⟩
        refine ⟨k, ?_, rfl⟩
        have hk' : (k : ℚ) ≤ ((n - 1 : ℕ) : ℚ) := le_of_mul_le_mul_right hk hI
        have hle : k ≤ n - 1 := by exact_mod_cast hk'
        exact lt_of_le_of_lt hle (Nat.sub_lt hpos Nat.one_pos)

/-- Witness for C5's amended theorem at `D = 10`, `I = 3`. -/
theorem c5_frame_timestamps_witness :
    (0 : ℚ) < 3 ∧
    ((9 : ℚ) ∈ (getFrameTimestamps 10 (some 3)).2.2 ↔
      ∃ k : ℕ, (9 : ℚ) = (k : ℚ) * 3 ∧ (k : ℚ) * 3 < 10) :=
  ⟨by norm_num, ((c5_frame_timestamps 10 3 (by norm_num)).1 9)⟩

/-! ### Preservation lemmas for the embedding loop -/

theorem FramesOnly.refl (s : PipelineState) : FramesOnly s s :=
  ⟨rfl, rfl, rfl⟩

theorem FramesOnly.trans {s₁ s₂ s₃ : PipelineState}
    (h₁ : FramesOnly s₁ s₂) (h₂ : FramesOnly s₂ s₃) : FramesOnly s₁ s₃ :=
  ⟨h₂.1.trans h₁.1, h₂.2.1.trans h₁.2.1, h₂.2.2.trans h₁.2.2⟩

theorem core_patchFrameEmbeddings (img kw : Option (List ℚ)) (f : FrameRow) :
    (patchFrameEmbeddings img kw f).core = f.core := by
  cases img <;> cases kw <;> rfl

theorem framesOnly_callEmbed (s : PipelineState) : FramesOnly s (callEmbed s) :=
  ⟨rfl, rfl, rfl⟩

theorem framesOnly_updateFrameEmbeddings (fid : Nat) (img kw : Option (List ℚ))
    (s : PipelineState) : FramesOnly s (updateFrameEmbeddings fid img kw s) := by
  refine ⟨rfl, rfl, ?_⟩
  simp only [updateFrameEmbeddings, List.map_map]
  apply List.map_congr_left
  intro f _
  by_cases h : f.id = fid <;> simp [h, core_patchFrameEmbeddings]

theorem framesOnly_embedFrameKeywords (env : PipelineEnv) (fid : Nat) (s : PipelineState) :
    FramesOnly s (embedFrameKeywords env fid s).2 := by
  unfold embedFrameKeywords
  cases hf : s.frames.find? (fun f => f.id = fid) with
  | none => exact FramesOnly.refl s
  | some f =>
      dsimp only
      cases hk : f.keywords with
      | none => exact FramesOnly.refl s
      | some ks =>
          dsimp only
          by_cases hks : ks.isEmpty
          · rw [if_pos hks]
            exact FramesOnly.refl s
          · rw [if_neg hks]
            cases ht : env.textEmbed (String.intercalate ", " ks) with
            | error e => exact framesOnly_callEmbed s
            | ok emb =>
                exact (framesOnly_callEmbed s).trans
                  (framesOnly_updateFrameEmbeddings fid none (some emb) (callEmbed s))

theorem framesOnly_embedFrameImageWithOpenAI (env : PipelineEnv) (fid : Nat)
    (s : PipelineState) : FramesOnly s (embedFrameImageWithOpenAI env fid s).2 := by
  unfold embedFrameImageWithOpenAI
  cases hf : s.frames.find? (fun f => f.id = fid) with
  | none => exact FramesOnly.refl s
  | some f =>
      dsimp only
      cases hv : env.visionDescribe fid with
      | error e => exact framesOnly_callEmbed s
      | ok desc =>
          dsimp only
          cases ht : env.textEmbed desc with
          | error e => exact (framesOnly_callEmbed s).trans (framesOnly_callEmbed _)
          | ok emb =>
              exact ((framesOnly_callEmbed s).trans (framesOnly_callEmbed _)).trans
                (framesOnly_updateFrameEmbeddings fid (some emb) none _)

theorem framesOnly_embedFrameImage (env : PipelineEnv) (fid : Nat) (s : PipelineState) :
    FramesOnly s (embedFrameImage env fid s).2 := by
  unfold embedFrameImage
  cases hf : s.frames.find? (fun f => f.id = fid) with
  | none => exact FramesOnly.refl s
  | some f =>
      dsimp only
      cases hc : env.clipEmbed fid with
      | error e => exact framesOnly_callEmbed s
      | ok emb =>
          exact (framesOnly_callEmbed s).trans
            (framesOnly_updateFrameEmbeddings fid (some emb) none _)

theorem framesOnly_embedOneFrame (env : PipelineEnv) (a b : Bool) (f : FrameRow)
    (s : PipelineState) : FramesOnly s (embedOneFrame env a b f s).2 := by
  unfold embedOneFrame
  have hkw : FramesOnly s
      (match f.keywords with
        | some ks => if ks.isEmpty then ((Except.ok ()), s) else embedFrameKeywords env f.id s
        | none => ((Except.ok ()), s)).2 := by
    cases hk : f.keywords with
    | none => exact FramesOnly.refl s
    | some ks =>
        dsimp only
        by_cases hks : ks.isEmpty
        · rw [if_pos hks]
          exact FramesOnly.refl s
        · rw [if_neg hks]
          exact framesOnly_embedFrameKeywords env f.id s
  cases hstep : (match f.keywords with
      | some ks => if ks.isEmpty then ((Except.ok ()), s) else embedFrameKeywords env f.id s
      | none => ((Except.ok ()), s)) with
  | mk r s₁ =>
      rw [hstep] at hkw
      dsimp only at hkw ⊢
      cases r with
      | error e => exact hkw
      | ok u =>
          dsimp only
          cases a with
          | false =>
              rw [if_neg Bool.false_ne_true]
              exact hkw
          | true =>
              rw [if_pos rfl]
              cases b with
              | true =>
                  rw [if_pos rfl]
                  cases hshot : embedFrameImageWithOpenAI env f.id s₁ with
                  | mk r₂ s₂ =>
                      have h₂ := framesOnly_embedFrameImageWithOpenAI env f.id s₁
                      rw [hshot] at h₂
                      dsimp only at h₂
                      cases r₂ <;> exact hkw.trans h₂
              | false =>
                  rw [if_neg Bool.false_ne_true]
                  cases hshot : embedFrameImage env f.id s₁ with
                  | mk r₂ s₂ =>
                      have h₂ := framesOnly_embedFrameImage env f.id s₁
                      rw [hshot] at h₂
                      dsimp only at h₂
                      cases r₂ <;> exact hkw.trans h₂

theorem framesOnly_embedLoop (env : PipelineEnv) (a b : Bool) :
    ∀ (fs : List FrameRow) (acc : List (Nat × Bool × Option String) × PipelineState),
      FramesOnly acc.2 (embedLoop env a b fs acc).2 := by
  intro fs
  induction fs with
  | nil => intro acc; exact FramesOnly.refl _
  | cons f fs ih =>
      intro acc
      have h₁ := framesOnly_embedOneFrame env a b f acc.2
      have h₂ := ih (acc.1 ++ [(f.id, (embedOneFrame env a b f acc.2).1.1,
        (embedOneFrame env a b f acc.2).1.2)], (embedOneFrame env a b f acc.2).2)
      simp only [embedLoop, List.foldl_cons] at h₂ ⊢
      exact h₁.trans h₂

theorem embedVideoFrames_video (env : PipelineEnv) (a b : Bool) (l : Option Nat)
    (s : PipelineState) :
    ((embedVideoFrames env a b l s).2.video = s.video ∨
      (embedVideoFrames env a b l s).2.video =
        { s.video with processingSteps := s.video.processingSteps.set .embedded true }) ∧
    (embedVideoFrames env a b l s).2.statusWrites = s.statusWrites ∧
    (embedVideoFrames env a b l s).2.frames.map FrameRow.core =
      s.frames.map FrameRow.core := by
  unfold embedVideoFrames
  by_cases he : (getFramesWithoutEmbeddings s l).isEmpty
  · rw [if_pos he]
    exact ⟨Or.inl rfl, rfl, rfl⟩
  · rw [if_neg he]
    have hl := framesOnly_embedLoop env a b (getFramesWithoutEmbeddings s l) ([], s)
    cases hloop : embedLoop env a b (getFramesWithoutEmbeddings s l) ([], s) with
    | mk results s₁ =>
        rw [hloop] at hl
        dsimp only at hl ⊢
        by_cases hr : (getFramesWithoutEmbeddings s₁ none).isEmpty
        · rw [if_pos hr]
          refine ⟨Or.inr ?_, ?_, ?_⟩
          · show (updateProcessingStep .embedded true s₁).video = _
            rw [updateProcessingStep, hl.1]
          · show (updateProcessingStep .embedded true s₁).statusWrites = _
            exact hl.2.1
          · show (updateProcessingStep .embedded true s₁).frames.map FrameRow.core = _
            exact hl.2.2
        · rw [if_neg hr]
          exact ⟨Or.inl hl.1, hl.2.1, hl.2.2⟩

/-! ### Stage equations -/

theorem extractFrames_ok (env : PipelineEnv) (I : ℚ) (s : PipelineState) (n : Nat)
    (h : env.extractOutcome = .ok n) :
    (extractFrames env I s).1 = (true, some n, none) ∧
    (extractFrames env I s).2.video =
      { s.video with
        processingSteps := s.video.processingSteps.set .framesExtracted true
        duration := if 0 < n then some (((n - 1 : ℕ) : ℚ) * I) else s.video.duration } ∧
    (extractFrames env I s).2.statusWrites = s.statusWrites ∧
    (extractFrames env I s).2.frames = s.frames ++
      (if 0 < n then buildRows s.nextId ((List.range n).map (fun i : Nat => (i : ℚ) * I))
        else []) ∧
    (extractFrames env I s).2.embedCalls = s.embedCalls := by
  unfold extractFrames
  rw [h]
  have hb := createFramesBatch_frames ((List.range n).map (fun i : Nat => (i : ℚ) * I)) s
  by_cases h0 : 0 < n <;>
    refine ⟨?_, ?_, ?_, ?_, ?_⟩ <;>
      simp [h0, updateVideoDuration, updateProcessingStep, hb.1, hb.2.1, hb.2.2.1, hb.2.2.2]

theorem extractFrames_err (env : PipelineEnv) (I : ℚ) (s : PipelineState) (e : String)
    (h : env.extractOutcome = .error e) :
    extractFrames env I s = ((false, none, some e), s) := by
  unfold extractFrames
  rw [h]

theorem transcribeVideo_ok (env : PipelineEnv) (s : PipelineState) (tr : String)
    (d : Option ℚ) (h : env.transcribeOutcome = .ok (tr, d)) :
    transcribeVideo env s =
      (.ok (), updateProcessingStep .transcribed true (storeTranscript tr d s)) := by
  unfold transcribeVideo
  rw [h]

theorem transcribeVideo_err (env : PipelineEnv) (s : PipelineState) (e : String)
    (h : env.transcribeOutcome = .error e) :
    transcribeVideo env s = (.error e, s) := by
  unfold transcribeVideo
  rw [h]

theorem analyzeTranscript_ok (env : PipelineEnv) (s : PipelineState) (tr sum : String)
    (kws cats : List String) (htr : s.video.transcript = some tr) (hne : tr ≠ "")
    (h : env.analyzeOutcome = .ok (sum, kws, cats)) :
    analyzeTranscript env s = (.ok (), storeGroqAnalysis sum kws cats s) := by
  unfold analyzeTranscript
  rw [htr]
  dsimp only
  rw [if_neg hne, h]

theorem analyzeTranscript_err (env : PipelineEnv) (s : PipelineState) (tr e : String)
    (htr : s.video.transcript = some tr) (hne : tr ≠ "")
    (h : env.analyzeOutcome = .error e) :
    analyzeTranscript env s = (.error e, s) := by
  unfold analyzeTranscript
  rw [htr]
  dsimp only
  rw [if_neg hne, h]

theorem analyzeTranscript_empty (env : PipelineEnv) (s : PipelineState)
    (htr : s.video.transcript = some "") :
    analyzeTranscript env s =
      (.error "Video has no transcript. Run transcription first.", s) := by
  unfold analyzeTranscript
  rw [htr]
  dsimp only
  rw [if_pos rfl]

theorem embedVideoText_ok (env : PipelineEnv) (s : PipelineState) (tr sum : String)
    (e₁ e₂ : List ℚ) (htr : s.video.transcript = some tr) (hne₁ : tr ≠ "")
    (hsum : s.video.summary = some sum) (hne₂ : sum ≠ "")
    (h₁ : env.textEmbed (tr.take 8000) = .ok e₁) (h₂ : env.textEmbed sum = .ok e₂) :
    embedVideoText env s =
      (.ok (), storeVideoEmbeddings (some e₁) (some e₂) (callEmbed (callEmbed s))) := by
  unfold embedVideoText
  rw [htr]
  dsimp only
  rw [if_neg hne₁]
  rw [h₁]
  dsimp only
  have hsum' : (callEmbed s).video.summary = some sum := hsum
  rw [hsum']
  dsimp only
  rw [if_neg hne₂]
  rw [h₂]
  rfl

theorem embedVideoText_err_transcript (env : PipelineEnv) (s : PipelineState) (tr e : String)
    (htr : s.video.transcript = some tr) (hne₁ : tr ≠ "")
    (h₁ : env.textEmbed (tr.take 8000) = .error e) :
    embedVideoText env s = (.error e, callEmbed s) := by
  unfold embedVideoText
  rw [htr]
  dsimp only
  rw [if_neg hne₁]
  rw [h₁]

theorem embedOneFrame_success_patch (env : PipelineEnv) (f : FrameRow) (s : PipelineState)
    (hkw : f.keywords = none) (hfind : ∃ g ∈ s.frames, g.id = f.id)
    (hvis : ExceptOk (env.visionDescribe f.id))
    (htext : ∀ d, env.visionDescribe f.id = .ok d → ExceptOk (env.textEmbed d)) :
    ∃ emb, embedOneFrame env true true f s =
      ((true, none), updateFrameEmbeddings f.id (some emb) none (callEmbed (callEmbed s))) := by
  obtain ⟨g, hg, hid⟩ := hfind
  have hsome : (s.frames.find? (fun fr => fr.id = f.id)).isSome :=
    List.find?_isSome.mpr ⟨g, hg, by simp [hid]⟩
  obtain ⟨g', hg'⟩ := Option.isSome_iff_exists.mp hsome
  obtain ⟨d, hd⟩ := hvis
  obtain ⟨emb, he⟩ := htext d hd
  refine ⟨emb, ?_⟩
  have himg : embedFrameImageWithOpenAI env f.id s =
      (.ok (), updateFrameEmbeddings f.id (some emb) none (callEmbed (callEmbed s))) := by
    unfold embedFrameImageWithOpenAI
    rw [hg']
    dsimp only
    rw [hd]
    dsimp only
    rw [he]
  unfold embedOneFrame
  rw [hkw]
  dsimp only
  rw [if_pos rfl, if_pos rfl, himg]

theorem embedLoop_all_embedded (env : PipelineEnv)
    (hvis : ∀ i, ExceptOk (env.visionDescribe i))
    (htext : ∀ i d, env.visionDescribe i = .ok d → ExceptOk (env.textEmbed d)) :
    ∀ (fs : List FrameRow) (acc : List (Nat × Bool × Option String) × PipelineState),
      (∀ f ∈ fs, f.keywords = none) →
      (∀ f ∈ fs, ∃ g ∈ acc.2.frames, g.id = f.id) →
      (∀ f ∈ acc.2.frames, f.imageEmbedding.isSome ∨ f.id ∈ fs.map (fun x => x.id)) →
      ∀ f' ∈ (embedLoop env true true fs acc).2.frames, f'.imageEmbedding.isSome := by
  intro fs
  induction fs with
  | nil =>
      intro acc _ _ h3 f' hf'
      rcases h3 f' hf' with h | h
      · exact h
      · simp at h
  | cons f₀ fs ih =>
      intro acc h1 h2 h3
      obtain ⟨emb, hone⟩ := embedOneFrame_success_patch env f₀ acc.2
        (h1 f₀ (List.mem_cons_self f₀ fs)) (h2 f₀ (List.mem_cons_self f₀ fs))
        (hvis f₀.id) (htext f₀.id)
      show ∀ f' ∈ (embedLoop env true true (f₀ :: fs)
        acc).2.frames, f'.imageEmbedding.isSome
      have hstep : embedLoop env true true (f₀ :: fs) acc =
          embedLoop env true true fs
            (acc.1 ++ [(f₀.id, (embedOneFrame env true true f₀ acc.2).1.1,
              (embedOneFrame env true true f₀ acc.2).1.2)],
              (embedOneFrame env true true f₀ acc.2).2) := by
        simp [embedLoop, List.foldl_cons]
      rw [hstep]
      set s₁ := (embedOneFrame env true true f₀ acc.2).2 with hs₁
      have hframes : s₁.frames = acc.2.frames.map (fun g =>
          if g.id = f₀.id then patchFrameEmbeddings (some emb) none g else g) := by
        rw [hs₁, hone]
        rfl
      apply ih
      · intro f hf; exact h1 f (List.mem_cons_of_mem f₀ hf)
      · intro f hf
        obtain ⟨g, hg, hid⟩ := h2 f (List.mem_cons_of_mem f₀ hf)
        refine ⟨if g.id = f₀.id then patchFrameEmbeddings (some emb) none g else g, ?_, ?_⟩
        · rw [hframes]
          exact List.mem_map_of_mem _ hg
        · by_cases hgid : g.id = f₀.id
          · rw [if_pos hgid]
            show (patchFrameEmbeddings (some emb) none g).id = f.id
            rw [show (patchFrameEmbeddings (some emb) none g).id = g.id from rfl]
            exact hid
          · rw [if_neg hgid]
            exact hid
      · intro f' hf'
        rw [hframes] at hf'
        obtain ⟨g, hg, rfl⟩ := List.mem_map.mp hf'
        by_cases hgid : g.id = f₀.id
        · left
          simp [hgid, patchFrameEmbeddings]
        · simp only [hgid, if_neg, not_false_iff]
          rcases h3 g hg with h | h
          · exact Or.inl h
          · simp only [List.map_cons, List.mem_cons] at h
            rcases h with h | h
            · exact absurd h hgid
            · exact Or.inr h

theorem embedVideoFrames_all_ok (env : PipelineEnv) (s : PipelineState)
    (hvis : ∀ i, ExceptOk (env.visionDescribe i))
    (htext : ∀ i d, env.visionDescribe i = .ok d → ExceptOk (env.textEmbed d))
    (hkwall : ∀ f ∈ s.frames, f.keywords = none)
    (hne : ¬(getFramesWithoutEmbeddings s none).isEmpty) :
    (embedVideoFrames env true true none s).2.video =
      { s.video with processingSteps := s.video.processingSteps.set .embedded true } ∧
    (embedVideoFrames env true true none s).2.statusWrites = s.statusWrites := by
  unfold embedVideoFrames
  rw [if_neg hne]
  have hl := framesOnly_embedLoop env true true (getFramesWithoutEmbeddings s none) ([], s)
  have hall := embedLoop_all_embedded env hvis htext (getFramesWithoutEmbeddings s none) ([], s)
    (fun f hf => hkwall f (List.mem_of_mem_filter hf))
    (fun f hf => ⟨f, List.mem_of_mem_filter hf, rfl⟩)
    (by
      intro f hf
      by_cases hemb : f.imageEmbedding.isSome
      · exact Or.inl hemb
      · right
        refine List.mem_map_of_mem _ ?_
        unfold getFramesWithoutEmbeddings
        simp only [List.mem_filter]
        exact ⟨hf, by simp [Option.isNone_iff_eq_none, Option.not_isSome_iff_eq_none.mp hemb]⟩)
  cases hloop : embedLoop env true true (getFramesWithoutEmbeddings s none) ([], s) with
  | mk results s₁ =>
      rw [hloop] at hl hall
      dsimp only at hl hall ⊢
      have hrem : (getFramesWithoutEmbeddings s₁ none).isEmpty := by
        unfold getFramesWithoutEmbeddings
        rw [List.isEmpty_iff, List.filter_eq_nil_iff]
        intro f hf
        simp [Option.isNone_iff_eq_none, Option.isSome_iff_ne_none.mp (hall f hf)]
      rw [if_pos hrem]
      exact ⟨by show (updateProcessingStep .embedded true s₁).video = _; rw [updateProcessingStep, hl.1],
        hl.2.1⟩

theorem embedLoop_length (env : PipelineEnv) (a b : Bool) :
    ∀ (fs : List FrameRow) (acc : List (Nat × Bool × Option String) × PipelineState),
      (embedLoop env a b fs acc).1.length = acc.1.length + fs.length := by
  intro fs
  induction fs with
  | nil => intro acc; rfl
  | cons f fs ih =>
      intro acc
      have h := ih (acc.1 ++ [(f.id, (embedOneFrame env a b f acc.2).1.1,
        (embedOneFrame env a b f acc.2).1.2)], (embedOneFrame env a b f acc.2).2)
      simp only [embedLoop, List.foldl_cons] at h ⊢
      simp only [h, List.length_append, List.length_cons, List.length_nil]
      omega

/-! ### Shapes of full pipeline runs -/

theorem processVideoFull_ok_shape (env : PipelineEnv) (fn tr sum : String) (d : Option ℚ)
    (kws cats : List String) (n : Nat) (e₁ e₂ : List ℚ)
    (hn : env.extractOutcome = .ok n)
    (hT : env.transcribeOutcome = .ok (tr, d))
    (htrne : tr ≠ "")
    (hA : env.analyzeOutcome = .ok (sum, kws, cats))
    (hsumne : sum ≠ "")
    (hTE1 : env.textEmbed (tr.take 8000) = .ok e₁)
    (hTE2 : env.textEmbed sum = .ok e₂) :
    processVideoFull env (createVideo fn) =
      updateVideoStatus .ready
        (storeVideoEmbeddings (some e₁) (some e₂) (callEmbed (callEmbed
          (embedVideoFrames env true true none
            (storeGroqAnalysis sum kws cats
              (updateProcessingStep .transcribed true
                (storeTranscript tr d
                  (extractFrames env 10
                    (updateVideoStatus .processing (createVideo fn))).2)))).2))) := by
  have hE := extractFrames_ok env 10 (updateVideoStatus .processing (createVideo fn)) n hn
  unfold processVideoFull
  dsimp only
  have h11 : (extractFrames env 10 (updateVideoStatus .processing (createVideo fn))).1.1 = true := by
    rw [hE.1]
  rw [h11]
  simp only [Bool.not_true]
  rw [if_neg Bool.false_ne_true]
  rw [transcribeVideo_ok env _ tr d hT]
  dsimp only
  have htr2 : (updateProcessingStep .transcribed true
      (storeTranscript tr d
        (extractFrames env 10
          (updateVideoStatus .processing (createVideo fn))).2)).video.transcript = some tr := rfl
  rw [analyzeTranscript_ok env _ tr sum kws cats htr2 htrne hA]
  dsimp only
  have hv := embedVideoFrames_video env true true none
    (storeGroqAnalysis sum kws cats
      (updateProcessingStep .transcribed true
        (storeTranscript tr d
          (extractFrames env 10 (updateVideoStatus .processing (createVideo fn))).2)))
  have htr4 : (embedVideoFrames env true true none
      (storeGroqAnalysis sum kws cats
        (updateProcessingStep .transcribed true
          (storeTranscript tr d
            (extractFrames env 10
              (updateVideoStatus .processing (createVideo fn))).2)))).2.video.transcript =
        some tr := by
    rcases hv.1 with h | h <;> rw [h] <;> rfl
  have hsum4 : (embedVideoFrames env true true none
      (storeGroqAnalysis sum kws cats
        (updateProcessingStep .transcribed true
          (storeTranscript tr d
            (extractFrames env 10
              (updateVideoStatus .processing (createVideo fn))).2)))).2.video.summary =
        some sum := by
    rcases hv.1 with h | h <;> rw [h] <;> rfl
  rw [embedVideoText_ok env _ tr sum e₁ e₂ htr4 htrne hsum4 hsumne hTE1 hTE2]

theorem processVideoFull_extract_err (env : PipelineEnv) (fn e : String)
    (hn : env.extractOutcome = .error e) :
    processVideoFull env (createVideo fn) =
      updateVideoStatus .failed (updateVideoStatus .processing (createVideo fn)) := by
  unfold processVideoFull
  dsimp only
  rw [extractFrames_err env 10 (updateVideoStatus .processing (createVideo fn)) e hn]
  rfl

theorem processVideoFull_transcribe_err (env : PipelineEnv) (fn e : String) (n : Nat)
    (hn : env.extractOutcome = .ok n)
    (hT : env.transcribeOutcome = .error e) :
    processVideoFull env (createVideo fn) =
      updateVideoStatus .failed
        (extractFrames env 10 (updateVideoStatus .processing (createVideo fn))).2 := by
  have hE := extractFrames_ok env 10 (updateVideoStatus .processing (createVideo fn)) n hn
  unfold processVideoFull
  dsimp only
  have h11 : (extractFrames env 10 (updateVideoStatus .processing (createVideo fn))).1.1 = true := by
    rw [hE.1]
  rw [h11]
  simp only [Bool.not_true]
  rw [if_neg Bool.false_ne_true]
  rw [transcribeVideo_err env _ e hT]

theorem processVideoFull_analyze_err (env : PipelineEnv) (fn tr e : String) (d : Option ℚ)
    (n : Nat)
    (hn : env.extractOutcome = .ok n)
    (hT : env.transcribeOutcome = .ok (tr, d))
    (hA : env.analyzeOutcome = .error e) :
    processVideoFull env (createVideo fn) =
      updateVideoStatus .failed
        (updateProcessingStep .transcribed true
          (storeTranscript tr d
            (extractFrames env 10 (updateVideoStatus .processing (createVideo fn))).2)) := by
  have hE := extractFrames_ok env 10 (updateVideoStatus .processing (createVideo fn)) n hn
  unfold processVideoFull
  dsimp only
  have h11 : (extractFrames env 10 (updateVideoStatus .processing (createVideo fn))).1.1 = true := by
    rw [hE.1]
  rw [h11]
  simp only [Bool.not_true]
  rw [if_neg Bool.false_ne_true]
  rw [transcribeVideo_ok env _ tr d hT]
  dsimp only
  have htr2 : (updateProcessingStep .transcribed true
      (storeTranscript tr d
        (extractFrames env 10
          (updateVideoStatus .processing (createVideo fn))).2)).video.transcript = some tr := rfl
  by_cases htre : tr = ""
  · subst htre
    rw [analyzeTranscript_empty env _ htr2]
  · rw [analyzeTranscript_err env _ tr e htr2 htre hA]

theorem processVideoFull_emptyTranscript (env : PipelineEnv) (fn : String) (d : Option ℚ)
    (n : Nat)
    (hn : env.extractOutcome = .ok n)
    (hT : env.transcribeOutcome = .ok ("", d)) :
    processVideoFull env (createVideo fn) =
      updateVideoStatus .failed
        (updateProcessingStep .transcribed true
          (storeTranscript "" d
            (extractFrames env 10 (updateVideoStatus .processing (createVideo fn))).2)) := by
  have hE := extractFrames_ok env 10 (updateVideoStatus .processing (createVideo fn)) n hn
  unfold processVideoFull
  dsimp only
  have h11 : (extractFrames env 10 (updateVideoStatus .processing (createVideo fn))).1.1 = true := by
    rw [hE.1]
  rw [h11]
  simp only [Bool.not_true]
  rw [if_neg Bool.false_ne_true]
  rw [transcribeVideo_ok env _ "" d hT]
  dsimp only
  have htr2 : (updateProcessingStep .transcribed true
      (storeTranscript "" d
        (extractFrames env 10
          (updateVideoStatus .processing (createVideo fn))).2)).video.transcript = some "" := rfl
  rw [analyzeTranscript_empty env _ htr2]

theorem processVideoFull_textEmbed_err (env : PipelineEnv) (fn tr sum e : String)
    (d : Option ℚ) (kws cats : List String) (n : Nat)
    (hn : env.extractOutcome = .ok n)
    (hT : env.transcribeOutcome = .ok (tr, d))
    (htrne : tr ≠ "")
    (hA : env.analyzeOutcome = .ok (sum, kws, cats))
    (hTE1 : env.textEmbed (tr.take 8000) = .error e) :
    processVideoFull env (createVideo fn) =
      updateVideoStatus .failed
        (callEmbed
          (embedVideoFrames env true true none
            (storeGroqAnalysis sum kws cats
              (updateProcessingStep .transcribed true
                (storeTranscript tr d
                  (extractFrames env 10
                    (updateVideoStatus .processing (createVideo fn))).2)))).2) := by
  have hE := extractFrames_ok env 10 (updateVideoStatus .processing (createVideo fn)) n hn
  unfold processVideoFull
  dsimp only
  have h11 : (extractFrames env 10 (updateVideoStatus .processing (createVideo fn))).1.1 = true := by
    rw [hE.1]
  rw [h11]
  simp only [Bool.not_true]
  rw [if_neg Bool.false_ne_true]
  rw [transcribeVideo_ok env _ tr d hT]
  dsimp only
  have htr2 : (updateProcessingStep .transcribed true
      (storeTranscript tr d
        (extractFrames env 10
          (updateVideoStatus .processing (createVideo fn))).2)).video.transcript = some tr := rfl
  rw [analyzeTranscript_ok env _ tr sum kws cats htr2 htrne hA]
  dsimp only
  have hv := embedVideoFrames_video env true true none
    (storeGroqAnalysis sum kws cats
      (updateProcessingStep .transcribed true
        (storeTranscript tr d
          (extractFrames env 10 (updateVideoStatus .processing (createVideo fn))).2)))
  have htr4 : (embedVideoFrames env true true none
      (storeGroqAnalysis sum kws cats
        (updateProcessingStep .transcribed true
          (storeTranscript tr d
            (extractFrames env 10
              (updateVideoStatus .processing (createVideo fn))).2)))).2.video.transcript =
        some tr := by
    rcases hv.1 with h | h <;> rw [h] <;> rfl
  rw [embedVideoText_err_transcript env _ tr e htr4 htrne hTE1]

/-- C9: `embedVideoFrames` never propagates a per-frame embedding failure:
it always returns `success: true`, every processed frame gets exactly one
entry in the `results` list (`embedded + failed` accounts for all of them),
and a full-pipeline run in which every stage-level collaborator succeeds
(producing a non-empty transcript and summary, so no stage-level guard
throws) ends `ready` regardless of the per-frame vision/CLIP/embedding
outcomes. -/
theorem c9_frame_failures_never_fail_stage :
    (∀ (env : PipelineEnv) (a b : Bool) (l : Option Nat) (s : PipelineState),
      (embedVideoFrames env a b l s).1.success = true ∧
      (embedVideoFrames env a b l s).1.results.length =
        (getFramesWithoutEmbeddings s l).length ∧
      (embedVideoFrames env a b l s).1.embedded + (embedVideoFrames env a b l s).1.failed =
        (getFramesWithoutEmbeddings s l).length) ∧
    (∀ (env : PipelineEnv) (fn tr sum : String) (d : Option ℚ) (kws cats : List String)
        (n : Nat) (e₁ e₂ : List ℚ),
      env.extractOutcome = .ok n →
      env.transcribeOutcome = .ok (tr, d) → tr ≠ "" →
      env.analyzeOutcome = .ok (sum, kws, cats) → sum ≠ "" →
      env.textEmbed (tr.take 8000) = .ok e₁ →
      env.textEmbed sum = .ok e₂ →
      (processVideoFull env (createVideo fn)).video.status = .ready) := by
  constructor
  · intro env a b l s
    unfold embedVideoFrames
    by_cases he : (getFramesWithoutEmbeddings s l).isEmpty
    · rw [if_pos he]
      have hnil : getFramesWithoutEmbeddings s l = [] := List.isEmpty_iff.mp he
      rw [hnil]
      exact ⟨rfl, rfl, rfl⟩
    · rw [if_neg he]
      have hlen := embedLoop_length env a b (getFramesWithoutEmbeddings s l) ([], s)
      simp only [List.length_nil, Nat.zero_add] at hlen
      have hsc := List.length_filter_le (fun r => r.2.1)
        (embedLoop env a b (getFramesWithoutEmbeddings s l) ([], s)).1
      dsimp only
      refine ⟨rfl, hlen, ?_⟩
      omega
  · intro env fn tr sum d kws cats n e₁ e₂ hn hT htrne hA hsumne h1 h2
    rw [processVideoFull_ok_shape env fn tr sum d kws cats n e₁ e₂ hn hT htrne hA hsumne h1 h2]
    rfl

/-- Witness for C9: a run whose per-frame vision collaborator always fails
still ends `ready`. -/
theorem c9_frame_failures_never_fail_stage_witness :
    ({ okEnv with visionDescribe := fun _ => .error "vision down" } :
        PipelineEnv).extractOutcome = .ok 2 ∧
    (processVideoFull { okEnv with visionDescribe := fun _ => .error "vision down" }
      (createVideo "v.mp4")).video.status = .ready :=
  ⟨rfl,
    c9_frame_failures_never_fail_stage.2
      { okEnv with visionDescribe := fun _ => .error "vision down" }
      "v.mp4" "hello world" "a summary" (some 42) ["cats", "dogs"] ["vlog"] 2 [1, 2] [1, 2]
      rfl rfl (by decide) rfl (by decide) rfl rfl⟩

theorem buildRows_length (i : Nat) (ts : List ℚ) : (buildRows i ts).length = ts.length := by
  induction ts generalizing i with
  | nil => rfl
  | cons t ts ih => simp [buildRows, ih]

theorem full_flags_after_embed (env : PipelineEnv) (fn tr sum : String) (d : Option ℚ)
    (kws cats : List String) (n : Nat)
    (hn : env.extractOutcome = .ok n) (hpos : 0 < n)
    (hvis : ∀ i, ExceptOk (env.visionDescribe i))
    (htext : ∀ i dsc, env.visionDescribe i = .ok dsc → ExceptOk (env.textEmbed dsc)) :
    (embedVideoFrames env true true none
      (storeGroqAnalysis sum kws cats
        (updateProcessingStep .transcribed true
          (storeTranscript tr d
            (extractFrames env 10
              (updateVideoStatus .processing
                (createVideo fn))).2)))).2.video.processingSteps =
      { framesExtracted := true, framesAnalyzed := false,
        transcribed := true, embedded := true } := by
  have hE := extractFrames_ok env 10 (updateVideoStatus .processing (createVideo fn)) n hn
  have hframes1 : (extractFrames env 10
      (updateVideoStatus .processing (createVideo fn))).2.frames =
      buildRows 0 ((List.range n).map (fun i : Nat => (i : ℚ) * 10)) := by
    rw [hE.2.2.2.1]
    rw [if_pos hpos]
    rfl
  have hkwall : ∀ f ∈ (storeGroqAnalysis sum kws cats
      (updateProcessingStep .transcribed true
        (storeTranscript tr d
          (extractFrames env 10
            (updateVideoStatus .processing (createVideo fn))).2))).frames,
      f.keywords = none := by
    intro f hf
    have : f ∈ buildRows 0 ((List.range n).map (fun i : Nat => (i : ℚ) * 10)) := by
      rw [← hframes1]; exact hf
    exact (buildRows_fresh 0 _ f this).1
  have hne : ¬(getFramesWithoutEmbeddings (storeGroqAnalysis sum kws cats
      (updateProcessingStep .transcribed true
        (storeTranscript tr d
          (extractFrames env 10
            (updateVideoStatus .processing (createVideo fn))).2))) none).isEmpty := by
    intro hcontra
    have hfe : (storeGroqAnalysis sum kws cats
        (updateProcessingStep .transcribed true
          (storeTranscript tr d
            (extractFrames env 10
              (updateVideoStatus .processing (createVideo fn))).2))).frames =
        buildRows 0 ((List.range n).map (fun i : Nat => (i : ℚ) * 10)) := hframes1
    unfold getFramesWithoutEmbeddings at hcontra
    rw [List.isEmpty_iff, List.filter_eq_nil_iff] at hcontra
    have hlen : 0 < (buildRows 0 ((List.range n).map (fun i : Nat => (i : ℚ) * 10))).length := by
      rw [buildRows_length]
      simpa using hpos
    obtain ⟨f, hf⟩ := List.exists_mem_of_length_pos hlen
    have hmem : f ∈ (storeGroqAnalysis sum kws cats
        (updateProcessingStep .transcribed true
          (storeTranscript tr d
            (extractFrames env 10
              (updateVideoStatus .processing (createVideo fn))).2))).frames := by
      rw [hfe]; exact hf
    have hnone := (buildRows_fresh 0 _ f hf).2.1
    exact hcontra f hmem (by simp [Option.isNone_iff_eq_none, hnone])
  have hAll := embedVideoFrames_all_ok env _ hvis htext hkwall hne
  rw [hAll.1]
  show ((storeGroqAnalysis sum kws cats
    (updateProcessingStep .transcribed true
      (storeTranscript tr d
        (extractFrames env 10
          (updateVideoStatus .processing
            (createVideo fn))).2))).video.processingSteps).set
      .embedded true = _
  have hs1 : (storeGroqAnalysis sum kws cats
      (updateProcessingStep .transcribed true
        (storeTranscript tr d
          (extractFrames env 10
            (updateVideoStatus .processing (createVideo fn))).2))).video.processingSteps =
      ((extractFrames env 10
        (updateVideoStatus .processing
          (createVideo fn))).2.video.processingSteps).set .transcribed true := rfl
  rw [hs1, hE.2.1]
  rfl

/-- C3 counterexample: a fully successful full-path run (`okEnv`: every
collaborator succeeds, two frames extracted) ends `ready`, yet
`framesAnalyzed` is still `false` — the full pipeline never invokes the
frame-analysis stage, so "all four processingSteps flags true" fails. -/
theorem c3_counterexample :
    (processVideoFull okEnv (createVideo "v.mp4")).video.status = .ready ∧
    (processVideoFull okEnv (createVideo "v.mp4")).video.processingSteps.framesAnalyzed
      = false := by
  decide

/-- C3 (amended): a newly created video starts `uploading` with all four
flags false; a successful fast-path run ends `ready` with only
`framesExtracted` true; a successful full-path run (at least one frame, all
collaborators succeeding, the stored transcript and the produced summary
non-empty — the JS guards treat the empty string as missing) ends `ready`
with `framesExtracted`, `transcribed` and `embedded` true but
`framesAnalyzed` still false (the full path invokes no frame-analysis stage);
and any stage failure — frame extraction, transcription, an empty (falsy)
transcript aborting the analysis stage, the Groq analysis itself, or the
transcript-embedding call, as well as the fast path's extraction failure —
ends `failed` with exactly the flags set by the stages that completed before
the failure. -/
theorem c3_status_lifecycle :
    (∀ fn : String, (createVideo fn).video.status = .uploading ∧
      (createVideo fn).video.processingSteps = ProcessingSteps.init) ∧
    (∀ (env : PipelineEnv) (fn : String) (n : Nat), env.extractOutcome = .ok n →
      (processVideo env (createVideo fn)).video.status = .ready ∧
      (processVideo env (createVideo fn)).video.processingSteps =
        { framesExtracted := true, framesAnalyzed := false,
          transcribed := false, embedded := false }) ∧
    (∀ (env : PipelineEnv) (fn tr sum : String) (d : Option ℚ) (kws cats : List String)
        (n : Nat),
      env.extractOutcome = .ok n → 0 < n →
      env.transcribeOutcome = .ok (tr, d) → tr ≠ "" →
      env.analyzeOutcome = .ok (sum, kws, cats) → sum ≠ "" →
      (∀ i, ExceptOk (env.visionDescribe i)) →
      (∀ t, ExceptOk (env.textEmbed t)) →
      (processVideoFull env (createVideo fn)).video.status = .ready ∧
      (processVideoFull env (createVideo fn)).video.processingSteps =
        { framesExtracted := true, framesAnalyzed := false,
          transcribed := true, embedded := true }) ∧
    (∀ (env : PipelineEnv) (fn e : String), env.extractOutcome = .error e →
      (processVideoFull env (createVideo fn)).video.status = .failed ∧
      (processVideoFull env (createVideo fn)).video.processingSteps =
        ProcessingSteps.init) ∧
    (∀ (env : PipelineEnv) (fn e : String) (n : Nat),
      env.extractOutcome = .ok n → env.transcribeOutcome = .error e →
      (processVideoFull env (createVideo fn)).video.status = .failed ∧
      (processVideoFull env (createVideo fn)).video.processingSteps =
        { framesExtracted := true, framesAnalyzed := false,
          transcribed := false, embedded := false }) ∧
    (∀ (env : PipelineEnv) (fn : String) (d : Option ℚ) (n : Nat),
      env.extractOutcome = .ok n → env.transcribeOutcome = .ok ("", d) →
      (processVideoFull env (createVideo fn)).video.status = .failed ∧
      (processVideoFull env (createVideo fn)).video.processingSteps =
        { framesExtracted := true, framesAnalyzed := false,
          transcribed := true, embedded := false }) ∧
    (∀ (env : PipelineEnv) (fn tr e : String) (d : Option ℚ) (n : Nat),
      env.extractOutcome = .ok n → env.transcribeOutcome = .ok (tr, d) →
      env.analyzeOutcome = .error e →
      (processVideoFull env (createVideo fn)).video.status = .failed ∧
      (processVideoFull env (createVideo fn)).video.processingSteps =
        { framesExtracted := true, framesAnalyzed := false,
          transcribed := true, embedded := false }) ∧
    (∀ (env : PipelineEnv) (fn tr sum e : String) (d : Option ℚ) (kws cats : List String)
        (n : Nat),
      env.extractOutcome = .ok n → 0 < n →
      env.transcribeOutcome = .ok (tr, d) → tr ≠ "" →
      env.analyzeOutcome = .ok (sum, kws, cats) →
      (∀ i, ExceptOk (env.visionDescribe i)) →
      (∀ i dsc, env.visionDescribe i = .ok dsc → ExceptOk (env.textEmbed dsc)) →
      env.textEmbed (tr.take 8000) = .error e →
      (processVideoFull env (createVideo fn)).video.status = .failed ∧
      (processVideoFull env (createVideo fn)).video.processingSteps =
        { framesExtracted := true, framesAnalyzed := false,
          transcribed := true, embedded := true }) ∧
    (∀ (env : PipelineEnv) (fn e : String), env.extractOutcome = .error e →
      (processVideo env (createVideo fn)).video.status = .failed ∧
      (processVideo env (createVideo fn)).video.processingSteps =
        ProcessingSteps.init) := by
  refine ⟨fun fn => ⟨rfl, rfl⟩, ?_, ?_, ?_, ?_, ?_, ?_, ?_, ?_⟩
  · intro env fn n hn
    have hE := extractFrames_ok env 10 (updateVideoStatus .processing (createVideo fn)) n hn
    unfold processVideo
    dsimp only
    have h11 : (extractFrames env 10
        (updateVideoStatus .processing (createVideo fn))).1.1 = true := by rw [hE.1]
    rw [h11, if_pos rfl]
    refine ⟨rfl, ?_⟩
    show (extractFrames env 10
      (updateVideoStatus .processing (createVideo fn))).2.video.processingSteps = _
    rw [hE.2.1]
    rfl
  · intro env fn tr sum d kws cats n hn hpos hT htrne hA hsumne hvis htext
    obtain ⟨e₁, h1⟩ := htext (tr.take 8000)
    obtain ⟨e₂, h2⟩ := htext sum
    rw [processVideoFull_ok_shape env fn tr sum d kws cats n e₁ e₂ hn hT htrne hA hsumne h1 h2]
    refine ⟨rfl, ?_⟩
    show (embedVideoFrames env true true none
      (storeGroqAnalysis sum kws cats
        (updateProcessingStep .transcribed true
          (storeTranscript tr d
            (extractFrames env 10
              (updateVideoStatus .processing
                (createVideo fn))).2)))).2.video.processingSteps = _
    exact full_flags_after_embed env fn tr sum d kws cats n hn hpos hvis
      (fun i dsc _ => htext dsc)
  · intro env fn e hn
    rw [processVideoFull_extract_err env fn e hn]
    exact ⟨rfl, rfl⟩
  · intro env fn e n hn hT
    rw [processVideoFull_transcribe_err env fn e n hn hT]
    have hE := extractFrames_ok env 10 (updateVideoStatus .processing (createVideo fn)) n hn
    refine ⟨rfl, ?_⟩
    show (extractFrames env 10
      (updateVideoStatus .processing (createVideo fn))).2.video.processingSteps = _
    rw [hE.2.1]
    rfl
  · intro env fn d n hn hT
    rw [processVideoFull_emptyTranscript env fn d n hn hT]
    have hE := extractFrames_ok env 10 (updateVideoStatus .processing (createVideo fn)) n hn
    refine ⟨rfl, ?_⟩
    show ((extractFrames env 10
      (updateVideoStatus .processing
        (createVideo fn))).2.video.processingSteps).set .transcribed true = _
    rw [hE.2.1]
    rfl
  · intro env fn tr e d n hn hT hA
    rw [processVideoFull_analyze_err env fn tr e d n hn hT hA]
    have hE := extractFrames_ok env 10 (updateVideoStatus .processing (createVideo fn)) n hn
    refine ⟨rfl, ?_⟩
    show ((extractFrames env 10
      (updateVideoStatus .processing
        (createVideo fn))).2.video.processingSteps).set .transcribed true = _
    rw [hE.2.1]
    rfl
  · intro env fn tr sum e d kws cats n hn hpos hT htrne hA hvis hvtext hTE
    rw [processVideoFull_textEmbed_err env fn tr sum e d kws cats n hn hT htrne hA hTE]
    refine ⟨rfl, ?_⟩
    show (embedVideoFrames env true true none
      (storeGroqAnalysis sum kws cats
        (updateProcessingStep .transcribed true
          (storeTranscript tr d
            (extractFrames env 10
              (updateVideoStatus .processing
                (createVideo fn))).2)))).2.video.processingSteps = _
    exact full_flags_after_embed env fn tr sum d kws cats n hn hpos hvis hvtext
  · intro env fn e hn
    unfold processVideo
    dsimp only
    rw [extractFrames_err env 10 (updateVideoStatus .processing (createVideo fn)) e hn]
    exact ⟨rfl, rfl⟩

/-- Witness for C3's amended lifecycle theorem at `okEnv`. -/
theorem c3_status_lifecycle_witness :
    okEnv.extractOutcome = .ok 2 ∧
    (processVideoFull okEnv (createVideo "v.mp4")).video.processingSteps =
      { framesExtracted := true, framesAnalyzed := false,
        transcribed := true, embedded := true } :=
  ⟨rfl,
    (c3_status_lifecycle.2.2.1 okEnv "v.mp4" "hello world" "a summary" (some 42)
      ["cats", "dogs"] ["vlog"] 2 rfl (by norm_num) rfl (by decide) rfl (by decide)
      (fun i => ⟨"a frame", rfl⟩) (fun t => ⟨[1, 2], rfl⟩)).2⟩

/-- C4: in both pipeline variants a stage error leads to exactly one `failed`
status write (the trace is `[processing, failed]`, so no retry and no further
stage executes), and artifacts persisted by earlier stages (frames,
transcript, summary) are not rolled back, while artifacts of later stages are
absent (no embedding-collaborator call has happened for pre-embedding
failures).  The transcript-embedding failure point assumes a non-empty stored
transcript: an empty (JS-falsy) transcript already aborts the run at the
analysis guard, before any summary is stored. -/
theorem c4_failure_aborts_without_rollback :
    (∀ (env : PipelineEnv) (fn e : String), env.extractOutcome = .error e →
      (processVideoFull env (createVideo fn)).video.status = .failed ∧
      (processVideoFull env (createVideo fn)).statusWrites = [.processing, .failed] ∧
      (processVideoFull env (createVideo fn)).frames = [] ∧
      (processVideoFull env (createVideo fn)).video.transcript = none ∧
      (processVideoFull env (createVideo fn)).embedCalls = 0) ∧
    (∀ (env : PipelineEnv) (fn e : String) (n : Nat),
      env.extractOutcome = .ok n → env.transcribeOutcome = .error e →
      (processVideoFull env (createVideo fn)).video.status = .failed ∧
      (processVideoFull env (createVideo fn)).statusWrites = [.processing, .failed] ∧
      (processVideoFull env (createVideo fn)).frames =
        (if 0 < n then buildRows 0 ((List.range n).map (fun i : Nat => (i : ℚ) * 10))
          else []) ∧
      (processVideoFull env (createVideo fn)).video.transcript = none ∧
      (processVideoFull env (createVideo fn)).video.summary = none ∧
      (processVideoFull env (createVideo fn)).embedCalls = 0) ∧
    (∀ (env : PipelineEnv) (fn tr e : String) (d : Option ℚ) (n : Nat),
      env.extractOutcome = .ok n → env.transcribeOutcome = .ok (tr, d) →
      env.analyzeOutcome = .error e →
      (processVideoFull env (createVideo fn)).video.status = .failed ∧
      (processVideoFull env (createVideo fn)).statusWrites = [.processing, .failed] ∧
      (processVideoFull env (createVideo fn)).frames =
        (if 0 < n then buildRows 0 ((List.range n).map (fun i : Nat => (i : ℚ) * 10))
          else []) ∧
      (processVideoFull env (createVideo fn)).video.transcript = some tr ∧
      (processVideoFull env (createVideo fn)).video.summary = none ∧
      (processVideoFull env (createVideo fn)).embedCalls = 0) ∧
    (∀ (env : PipelineEnv) (fn tr sum e : String) (d : Option ℚ) (kws cats : List String)
        (n : Nat),
      env.extractOutcome = .ok n → env.transcribeOutcome = .ok (tr, d) → tr ≠ "" →
      env.analyzeOutcome = .ok (sum, kws, cats) →
      env.textEmbed (tr.take 8000) = .error e →
      (processVideoFull env (createVideo fn)).video.status = .failed ∧
      (processVideoFull env (createVideo fn)).statusWrites = [.processing, .failed] ∧
      (processVideoFull env (createVideo fn)).video.transcript = some tr ∧
      (processVideoFull env (createVideo fn)).video.summary = some sum) ∧
    (∀ (env : PipelineEnv) (fn e : String), env.extractOutcome = .error e →
      (processVideo env (createVideo fn)).video.status = .failed ∧
      (processVideo env (createVideo fn)).statusWrites = [.processing, .failed]) := by
  refine ⟨?_, ?_, ?_, ?_, ?_⟩
  · intro env fn e hn
    rw [processVideoFull_extract_err env fn e hn]
    exact ⟨rfl, rfl, rfl, rfl, rfl⟩
  · intro env fn e n hn hT
    rw [processVideoFull_transcribe_err env fn e n hn hT]
    have hE := extractFrames_ok env 10 (updateVideoStatus .processing (createVideo fn)) n hn
    refine ⟨rfl, ?_, ?_, ?_, ?_, ?_⟩
    · show (extractFrames env 10
        (updateVideoStatus .processing (createVideo fn))).2.statusWrites ++ [.failed] = _
      rw [hE.2.2.1]
      rfl
    · show (extractFrames env 10
        (updateVideoStatus .processing (createVideo fn))).2.frames = _
      rw [hE.2.2.2.1]
      by_cases h0 : 0 < n <;> simp [h0] <;> rfl
    · show (extractFrames env 10
        (updateVideoStatus .processing (createVideo fn))).2.video.transcript = _
      rw [hE.2.1]
      rfl
    · show (extractFrames env 10
        (updateVideoStatus .processing (createVideo fn))).2.video.summary = _
      rw [hE.2.1]
      rfl
    · show (extractFrames env 10
        (updateVideoStatus .processing (createVideo fn))).2.embedCalls = _
      rw [hE.2.2.2.2]
      rfl
  · intro env fn tr e d n hn hT hA
    rw [processVideoFull_analyze_err env fn tr e d n hn hT hA]
    have hE := extractFrames_ok env 10 (updateVideoStatus .processing (createVideo fn)) n hn
    refine ⟨rfl, ?_, ?_, rfl, ?_, ?_⟩
    · show (extractFrames env 10
        (updateVideoStatus .processing (createVideo fn))).2.statusWrites ++ [.failed] = _
      rw [hE.2.2.1]
      rfl
    · show (extractFrames env 10
        (updateVideoStatus .processing (createVideo fn))).2.frames = _
      rw [hE.2.2.2.1]
      by_cases h0 : 0 < n <;> simp [h0] <;> rfl
    · show (extractFrames env 10
        (updateVideoStatus .processing (createVideo fn))).2.video.summary = _
      rw [hE.2.1]
      rfl
    · show (extractFrames env 10
        (updateVideoStatus .processing (createVideo fn))).2.embedCalls = _
      rw [hE.2.2.2.2]
      rfl
  · intro env fn tr sum e d kws cats n hn hT htrne hA hTE
    rw [processVideoFull_textEmbed_err env fn tr sum e d kws cats n hn hT htrne hA hTE]
    have hE := extractFrames_ok env 10 (updateVideoStatus .processing (createVideo fn)) n hn
    have hv := embedVideoFrames_video env true true none
      (storeGroqAnalysis sum kws cats
        (updateProcessingStep .transcribed true
          (storeTranscript tr d
            (extractFrames env 10 (updateVideoStatus .processing (createVideo fn))).2)))
    refine ⟨rfl, ?_, ?_, ?_⟩
    · show (embedVideoFrames env true true none
        (storeGroqAnalysis sum kws cats
          (updateProcessingStep .transcribed true
            (storeTranscript tr d
              (extractFrames env 10
                (updateVideoStatus .processing
                  (createVideo fn))).2)))).2.statusWrites ++ [.failed] = _
      rw [hv.2.1]
      show (extractFrames env 10
        (updateVideoStatus .processing (createVideo fn))).2.statusWrites ++ [.failed] = _
      rw [hE.2.2.1]
      rfl
    · show (embedVideoFrames env true true none
        (storeGroqAnalysis sum kws cats
          (updateProcessingStep .transcribed true
            (storeTranscript tr d
              (extractFrames env 10
                (updateVideoStatus .processing
                  (createVideo fn))).2)))).2.video.transcript = _
      rcases hv.1 with h | h <;> rw [h] <;> rfl
    · show (embedVideoFrames env true true none
        (storeGroqAnalysis sum kws cats
          (updateProcessingStep .transcribed true
            (storeTranscript tr d
              (extractFrames env 10
                (updateVideoStatus .processing
                  (createVideo fn))).2)))).2.video.summary = _
      rcases hv.1 with h | h <;> rw [h] <;> rfl
  · intro env fn e hn
    unfold processVideo
    dsimp only
    rw [extractFrames_err env 10 (updateVideoStatus .processing (createVideo fn)) e hn]
    exact ⟨rfl, rfl⟩

/-- Witness for C4: a run whose transcription collaborator fails. -/
theorem c4_failure_aborts_without_rollback_witness :
    ({ okEnv with transcribeOutcome := .error "whisper down" } :
        PipelineEnv).extractOutcome = .ok 2 ∧
    (processVideoFull { okEnv with transcribeOutcome := .error "whisper down" }
      (createVideo "v.mp4")).statusWrites = [.processing, .failed] :=
  ⟨rfl,
    (c4_failure_aborts_without_rollback.2.1
      { okEnv with transcribeOutcome := .error "whisper down" }
      "v.mp4" "whisper down" 2 rfl rfl).2.1⟩

/-! ### Flag monotonicity -/

theorem stepsLe_refl (a : ProcessingSteps) : stepsLe a a :=
  ⟨id, id, id, id⟩

theorem stepsLe_of_eq {a b : ProcessingSteps} (h : a = b) : stepsLe a b :=
  h ▸ stepsLe_refl a

theorem stepsLe_trans {a b c : ProcessingSteps} (h₁ : stepsLe a b) (h₂ : stepsLe b c) :
    stepsLe a c :=
  ⟨fun h => h₂.1 (h₁.1 h), fun h => h₂.2.1 (h₁.2.1 h),
    fun h => h₂.2.2.1 (h₁.2.2.1 h), fun h => h₂.2.2.2 (h₁.2.2.2 h)⟩

theorem stepsLe_set_true (a : ProcessingSteps) (step : StepName) :
    stepsLe a (a.set step true) := by
  cases step <;>
    exact ⟨by simp [ProcessingSteps.set], by simp [ProcessingSteps.set],
      by simp [ProcessingSteps.set], by simp [ProcessingSteps.set]⟩

theorem stepsLe_extractFrames (env : PipelineEnv) (I : ℚ) (s : PipelineState) :
    stepsLe s.video.processingSteps (extractFrames env I s).2.video.processingSteps := by
  cases hn : env.extractOutcome with
  | error e =>
      rw [extractFrames_err env I s e hn]
      exact stepsLe_refl _
  | ok n =>
      have hE := extractFrames_ok env I s n hn
      have hflags : (extractFrames env I s).2.video.processingSteps =
          s.video.processingSteps.set .framesExtracted true := by
        rw [hE.2.1]
      rw [hflags]
      exact stepsLe_set_true _ _

theorem stepsLe_transcribeVideo (env : PipelineEnv) (s : PipelineState) :
    stepsLe s.video.processingSteps (transcribeVideo env s).2.video.processingSteps := by
  cases hn : env.transcribeOutcome with
  | error e =>
      rw [transcribeVideo_err env s e hn]
      exact stepsLe_refl _
  | ok p =>
      obtain ⟨tr, d⟩ := p
      rw [transcribeVideo_ok env s tr d hn]
      exact stepsLe_set_true _ _

theorem analyzeTranscript_flags (env : PipelineEnv) (s : PipelineState) :
    (analyzeTranscript env s).2.video.processingSteps = s.video.processingSteps := by
  unfold analyzeTranscript
  cases htr : s.video.transcript with
  | none => rfl
  | some tr =>
      dsimp only
      by_cases htre : tr = ""
      · rw [if_pos htre]
      · rw [if_neg htre]
        cases hA : env.analyzeOutcome with
        | error e => rfl
        | ok p =>
            obtain ⟨sum, kws, cats⟩ := p
            rfl

theorem embedVideoText_flags (env : PipelineEnv) (s : PipelineState) :
    (embedVideoText env s).2.video.processingSteps = s.video.processingSteps := by
  unfold embedVideoText
  cases htr : s.video.transcript with
  | none =>
      dsimp only [callEmbed]
      cases hs : s.video.summary with
      | none => rfl
      | some sum =>
          dsimp only
          by_cases hse : sum = ""
          · rw [if_pos hse]
            rfl
          · rw [if_neg hse]
            cases ht : env.textEmbed sum with
            | error e => rfl
            | ok em => rfl
  | some tr =>
      dsimp only [callEmbed]
      by_cases htre : tr = ""
      · rw [if_pos htre]
        dsimp only
        cases hs : s.video.summary with
        | none => rfl
        | some sum =>
            dsimp only
            by_cases hse : sum = ""
            · rw [if_pos hse]
              rfl
            · rw [if_neg hse]
              cases ht₂ : env.textEmbed sum with
              | error e => rfl
              | ok e₂ => rfl
      · rw [if_neg htre]
        cases ht : env.textEmbed (tr.take 8000) with
        | error e => rfl
        | ok e₁ =>
            dsimp only
            cases hs : s.video.summary with
            | none => rfl
            | some sum =>
                dsimp only
                by_cases hse : sum = ""
                · rw [if_pos hse]
                  rfl
                · rw [if_neg hse]
                  cases ht₂ : env.textEmbed sum with
                  | error e => rfl
                  | ok e₂ => rfl
theorem stepsLe_embedVideoFrames (env : PipelineEnv) (a b : Bool) (l : Option Nat)
    (s : PipelineState) :
    stepsLe s.video.processingSteps (embedVideoFrames env a b l s).2.video.processingSteps := by
  rcases (embedVideoFrames_video env a b l s).1 with h | h
  · rw [h]
    exact stepsLe_refl _
  · rw [h]
    exact stepsLe_set_true _ _

theorem stepsLe_processVideo (env : PipelineEnv) (s : PipelineState) :
    stepsLe s.video.processingSteps (processVideo env s).video.processingSteps := by
  unfold processVideo
  dsimp only
  have hx := stepsLe_extractFrames env 10 (updateVideoStatus .processing s)
  by_cases hr : (extractFrames env 10 (updateVideoStatus .processing s)).1.1 = true
  · rw [hr, if_pos rfl]
    exact hx
  · rw [Bool.not_eq_true] at hr
    rw [hr, if_neg Bool.false_ne_true]
    exact hx

theorem stepsLe_processVideoFull (env : PipelineEnv) (s : PipelineState) :
    stepsLe s.video.processingSteps (processVideoFull env s).video.processingSteps := by
  unfold processVideoFull
  dsimp only
  have hx := stepsLe_extractFrames env 10 (updateVideoStatus .processing s)
  by_cases hr : (extractFrames env 10 (updateVideoStatus .processing s)).1.1 = true
  case neg =>
    rw [Bool.not_eq_true] at hr
    rw [hr]
    simp only [Bool.not_false, if_true]
    exact hx
  case pos =>
    rw [hr]
    simp only [Bool.not_true]
    rw [if_neg Bool.false_ne_true]
    have ht := stepsLe_transcribeVideo env
      (extractFrames env 10 (updateVideoStatus .processing s)).2
    cases hT : transcribeVideo env
        (extractFrames env 10 (updateVideoStatus .processing s)).2 with
    | mk rT s₂ =>
        rw [hT] at ht
        dsimp only at ht ⊢
        cases rT with
        | error e => exact stepsLe_trans hx ht
        | ok u =>
            dsimp only
            have ha := analyzeTranscript_flags env s₂
            cases hA : analyzeTranscript env s₂ with
            | mk rA s₃ =>
                rw [hA] at ha
                dsimp only at ha ⊢
                cases rA with
                | error e =>
                    exact stepsLe_trans hx (stepsLe_trans ht (stepsLe_of_eq ha.symm))
                | ok u₂ =>
                    dsimp only
                    have he := stepsLe_embedVideoFrames env true true none s₃
                    have hft := embedVideoText_flags env
                      (embedVideoFrames env true true none s₃).2
                    cases hEt : embedVideoText env
                        (embedVideoFrames env true true none s₃).2 with
                    | mk rEt s₅ =>
                        rw [hEt] at hft
                        dsimp only at hft ⊢
                        have hchain : stepsLe s.video.processingSteps
                            s₅.video.processingSteps := by
                          rw [hft]
                          exact stepsLe_trans hx (stepsLe_trans ht
                            (stepsLe_trans (stepsLe_of_eq ha.symm) he))
                        cases rEt with
                        | error e => exact hchain
                        | ok u₃ => exact hchain

/-- C8: each processingSteps flag starts false at creation and is monotonic
across stage invocations: no stage action or pipeline run turns a true flag
back to false (every stage call site passes `value = true` to
`updateProcessingStep`). -/
theorem c8_flags_monotone :
    (∀ fn : String, (createVideo fn).video.processingSteps = ProcessingSteps.init) ∧
    (∀ (env : PipelineEnv) (I : ℚ) (s : PipelineState),
      stepsLe s.video.processingSteps (extractFrames env I s).2.video.processingSteps) ∧
    (∀ (env : PipelineEnv) (s : PipelineState),
      stepsLe s.video.processingSteps (transcribeVideo env s).2.video.processingSteps) ∧
    (∀ (env : PipelineEnv) (s : PipelineState),
      stepsLe s.video.processingSteps (analyzeTranscript env s).2.video.processingSteps) ∧
    (∀ (env : PipelineEnv) (a b : Bool) (l : Option Nat) (s : PipelineState),
      stepsLe s.video.processingSteps
        (embedVideoFrames env a b l s).2.video.processingSteps) ∧
    (∀ (env : PipelineEnv) (s : PipelineState),
      stepsLe s.video.processingSteps (embedVideoText env s).2.video.processingSteps) ∧
    (∀ (env : PipelineEnv) (s : PipelineState),
      stepsLe s.video.processingSteps (processVideo env s).video.processingSteps) ∧
    (∀ (env : PipelineEnv) (s : PipelineState),
      stepsLe s.video.processingSteps (processVideoFull env s).video.processingSteps) :=
  ⟨fun _ => rfl,
    stepsLe_extractFrames,
    stepsLe_transcribeVideo,
    fun env s => stepsLe_of_eq (analyzeTranscript_flags env s).symm,
    stepsLe_embedVideoFrames,
    fun env s => stepsLe_of_eq (embedVideoText_flags env s).symm,
    stepsLe_processVideo,
    stepsLe_processVideoFull⟩

/-! ### Association-list lemmas for the fusion map -/

theorem vmapFind_cons (a : String) (d : VideoData) (m : VMap) (j : String) :
    vmapFind ((a, d) :: m) j = if a = j then some d else vmapFind m j := by
  unfold vmapFind
  by_cases h : a = j
  · rw [List.find?_cons_of_pos _ (by simpa using h), if_pos h]
    rfl
  · rw [List.find?_cons_of_neg _ (by simpa using h), if_neg h]

theorem vmapUpdate_cons (a : String) (d : VideoData) (m : VMap) (k : String)
    (g : VideoData → VideoData) :
    vmapUpdate ((a, d) :: m) k g =
      (if a = k then (a, g d) else (a, d)) :: vmapUpdate m k g := by
  unfold vmapUpdate
  by_cases h : a = k <;> simp [h]

theorem vmapFind_update (m : VMap) (k j : String) (g : VideoData → VideoData) :
    vmapFind (vmapUpdate m k g) j =
      if j = k then (vmapFind m j).map g else vmapFind m j := by
  induction m with
  | nil => by_cases h : j = k <;> simp [vmapFind, vmapUpdate, h]
  | cons p m ih =>
      obtain ⟨a, d⟩ := p
      rw [vmapUpdate_cons]
      by_cases hja : j = a
      · subst hja
        by_cases hak : j = k
        · subst hak
          rw [if_pos rfl, vmapFind_cons, if_pos rfl, if_pos rfl, vmapFind_cons, if_pos rfl]
          rfl
        · rw [if_neg hak, vmapFind_cons, if_pos rfl, if_neg hak, vmapFind_cons, if_pos rfl]
      · have haj : ¬a = j := fun h => hja h.symm
        by_cases hak : a = k
        · rw [if_pos hak, vmapFind_cons, if_neg haj, ih, vmapFind_cons, if_neg haj]
        · rw [if_neg hak, vmapFind_cons, if_neg haj, ih, vmapFind_cons, if_neg haj]

theorem vmapFind_append_single (m : VMap) (k j : String) (d : VideoData) :
    vmapFind (m ++ [(k, d)]) j =
      ((vmapFind m j).or (if j = k then some d else none)) := by
  unfold vmapFind
  rw [List.find?_append]
  cases hx : m.find? (fun p => p.1 = j) with
  | some p => rfl
  | none =>
      by_cases h : j = k
      · subst h
        rw [List.find?_cons_of_pos _ (by simp), if_pos rfl]
        rfl
      · rw [List.find?_cons_of_neg _ (by simpa using fun hh => h hh.symm), if_neg h]
        rfl

theorem vmapFind_none_iff (m : VMap) (k : String) :
    vmapFind m k = none ↔ k ∉ m.map Prod.fst := by
  unfold vmapFind
  rw [Option.map_eq_none']
  rw [List.find?_eq_none]
  constructor
  · intro h hk
    obtain ⟨p, hp, hpk⟩ := List.mem_map.mp hk
    exact absurd (by simpa using hpk) (by simpa using h p hp)
  · intro h p hp
    simp only [decide_eq_true_eq]
    intro hpk
    exact h (List.mem_map.mpr ⟨p, hp, hpk⟩)

theorem addFrameMatch_find (m : VMap) (fm : FrameMatch) (j : String) :
    vmapFind (addFrameMatch m fm) j =
      if j = fm.videoId then some (bumpF ((vmapFind m fm.videoId).getD emptyVD) fm)
      else vmapFind m j := by
  unfold addFrameMatch
  cases hf : vmapFind m fm.videoId with
  | some d =>
      rw [if_pos (show (some d).isSome = true from rfl)]
      rw [vmapFind_update]
      by_cases h : j = fm.videoId
      · subst h
        rw [if_pos rfl, if_pos rfl, hf]
        rfl
      · rw [if_neg h, if_neg h]
  | none =>
      rw [if_neg (by simp : ¬(none : Option VideoData).isSome = true)]
      rw [vmapFind_update]
      by_cases h : j = fm.videoId
      · subst h
        rw [if_pos rfl, if_pos rfl, vmapFind_append_single, hf]
        simp
      · rw [if_neg h, if_neg h, vmapFind_append_single]
        rw [if_neg h]
        simp

theorem addVideoMatch_find (m : VMap) (vm : VideoMatch) (j : String) :
    vmapFind (addVideoMatch m vm) j =
      if j = vm.videoId then some (bumpV ((vmapFind m vm.videoId).getD emptyVD) vm)
      else vmapFind m j := by
  unfold addVideoMatch
  cases hf : vmapFind m vm.videoId with
  | some d =>
      rw [if_pos (show (some d).isSome = true from rfl)]
      rw [vmapFind_update]
      by_cases h : j = vm.videoId
      · subst h
        rw [if_pos rfl, if_pos rfl, hf]
        rfl
      · rw [if_neg h, if_neg h]
  | none =>
      rw [if_neg (by simp : ¬(none : Option VideoData).isSome = true)]
      rw [vmapFind_update]
      by_cases h : j = vm.videoId
      · subst h
        rw [if_pos rfl, if_pos rfl, vmapFind_append_single, hf]
        simp only [Option.none_or, if_pos rfl, Option.map_some]
        rfl
      · rw [if_neg h, if_neg h, vmapFind_append_single]
        rw [if_neg h]
        simp

theorem sumScores_shift (fs : List FrameMatch) :
    ∀ a : ℚ, fs.foldl (fun acc f => acc + f.score) a = a + sumScores fs := by
  induction fs with
  | nil => intro a; simp [sumScores]
  | cons f fs ih =>
      intro a
      rw [List.foldl_cons, ih]
      have h0 : sumScores (f :: fs) = (0 + f.score) + sumScores fs := by
        unfold sumScores
        rw [List.foldl_cons, ih]
        rfl
      rw [h0]
      ring

theorem sumVMScores_shift (vs : List VideoMatch) :
    ∀ a : ℚ, vs.foldl (fun acc v => acc + v.score) a = a + sumVMScores vs := by
  induction vs with
  | nil => intro a; simp [sumVMScores]
  | cons v vs ih =>
      intro a
      rw [List.foldl_cons, ih]
      have h0 : sumVMScores (v :: vs) = (0 + v.score) + sumVMScores vs := by
        unfold sumVMScores
        rw [List.foldl_cons, ih]
        rfl
      rw [h0]
      ring

theorem applyFM_totalScore (fs : List FrameMatch) :
    ∀ d : VideoData, (applyFM d fs).totalScore = d.totalScore + sumScores fs := by
  induction fs with
  | nil => intro d; simp [applyFM, sumScores]
  | cons f fs ih =>
      intro d
      have h0 : sumScores (f :: fs) = f.score + sumScores fs := by
        unfold sumScores
        rw [List.foldl_cons, sumScores_shift]
        show 0 + f.score + sumScores fs = f.score + sumScores fs
        ring
      rw [applyFM, List.foldl_cons]
      show (applyFM (bumpF d f) fs).totalScore = _
      rw [ih, h0]
      show d.totalScore + f.score + sumScores fs = _
      ring

theorem applyFM_frames (fs : List FrameMatch) :
    ∀ d : VideoData, (applyFM d fs).frames = d.frames ++ fs := by
  induction fs with
  | nil => intro d; simp [applyFM]
  | cons f fs ih =>
      intro d
      rw [applyFM, List.foldl_cons]
      show (applyFM (bumpF d f) fs).frames = _
      rw [ih]
      show (d.frames ++ [f]) ++ fs = d.frames ++ (f :: fs)
      simp

theorem applyVM_totalScore (vs : List VideoMatch) :
    ∀ d : VideoData, (applyVM d vs).totalScore = d.totalScore + sumVMScores vs := by
  induction vs with
  | nil => intro d; simp [applyVM, sumVMScores]
  | cons v vs ih =>
      intro d
      have h0 : sumVMScores (v :: vs) = v.score + sumVMScores vs := by
        unfold sumVMScores
        rw [List.foldl_cons, sumVMScores_shift]
        show 0 + v.score + sumVMScores vs = v.score + sumVMScores vs
        ring
      rw [applyVM, List.foldl_cons]
      show (applyVM (bumpV d v) vs).totalScore = _
      rw [ih, h0]
      show d.totalScore + v.score + sumVMScores vs = _
      ring

theorem applyVM_frames (vs : List VideoMatch) :
    ∀ d : VideoData, (applyVM d vs).frames = d.frames := by
  induction vs with
  | nil => intro d; simp [applyVM]
  | cons v vs ih =>
      intro d
      rw [applyVM, List.foldl_cons]
      show (applyVM (bumpV d v) vs).frames = _
      rw [ih]
      rfl

theorem foldFM_find (l : List FrameMatch) :
    ∀ (m : VMap) (j : String),
      vmapFind (l.foldl addFrameMatch m) j =
        match vmapFind m j with
        | some d => some (applyFM d (l.filter (fun f => f.videoId = j)))
        | none =>
            if (l.filter (fun f => f.videoId = j)).isEmpty then none
            else some (applyFM emptyVD (l.filter (fun f => f.videoId = j))) := by
  induction l with
  | nil =>
      intro m j
      cases h : vmapFind m j <;> simp [h, applyFM]
  | cons f l ih =>
      intro m j
      rw [List.foldl_cons, ih (addFrameMatch m f) j, addFrameMatch_find]
      by_cases hj : j = f.videoId
      · have hfil : (f :: l).filter (fun x => x.videoId = j) =
            f :: l.filter (fun x => x.videoId = j) := by
          simp [List.filter_cons, ← hj]
        rw [if_pos hj, hfil, ← hj]
        cases h : vmapFind m j <;> simp [h, applyFM, List.foldl_cons]
      · have hfil : (f :: l).filter (fun x => x.videoId = j) =
            l.filter (fun x => x.videoId = j) := by
          have : ¬f.videoId = j := fun hh => hj hh.symm
          simp [List.filter_cons, this]
        rw [if_neg hj, hfil]

theorem foldVM_find (l : List VideoMatch) :
    ∀ (m : VMap) (j : String),
      vmapFind (l.foldl addVideoMatch m) j =
        match vmapFind m j with
        | some d => some (applyVM d (l.filter (fun v => v.videoId = j)))
        | none =>
            if (l.filter (fun v => v.videoId = j)).isEmpty then none
            else some (applyVM emptyVD (l.filter (fun v => v.videoId = j))) := by
  induction l with
  | nil =>
      intro m j
      cases h : vmapFind m j <;> simp [h, applyVM]
  | cons v l ih =>
      intro m j
      rw [List.foldl_cons, ih (addVideoMatch m v) j, addVideoMatch_find]
      by_cases hj : j = v.videoId
      · have hfil : (v :: l).filter (fun x => x.videoId = j) =
            v :: l.filter (fun x => x.videoId = j) := by
          simp [List.filter_cons, ← hj]
        rw [if_pos hj, hfil, ← hj]
        cases h : vmapFind m j <;> simp [h, applyVM, List.foldl_cons]
      · have hfil : (v :: l).filter (fun x => x.videoId = j) =
            l.filter (fun x => x.videoId = j) := by
          have : ¬v.videoId = j := fun hh => hj hh.symm
          simp [List.filter_cons, this]
        rw [if_neg hj, hfil]

theorem vmapUpdate_keys (m : VMap) (k : String) (g : VideoData → VideoData) :
    (vmapUpdate m k g).map Prod.fst = m.map Prod.fst := by
  unfold vmapUpdate
  rw [List.map_map]
  apply List.map_congr_left
  intro p _
  by_cases h : p.1 = k <;> simp [h]

theorem addFrameMatch_keys_nodup (m : VMap) (fm : FrameMatch)
    (h : (m.map Prod.fst).Nodup) : ((addFrameMatch m fm).map Prod.fst).Nodup := by
  unfold addFrameMatch
  by_cases hf : (vmapFind m fm.videoId).isSome
  · rw [if_pos hf, vmapUpdate_keys]
    exact h
  · rw [if_neg hf, vmapUpdate_keys]
    have hnot : fm.videoId ∉ m.map Prod.fst :=
      (vmapFind_none_iff m fm.videoId).mp (Option.not_isSome_iff_eq_none.mp hf)
    simp [List.nodup_append, h, hnot]

theorem addVideoMatch_keys_nodup (m : VMap) (vm : VideoMatch)
    (h : (m.map Prod.fst).Nodup) : ((addVideoMatch m vm).map Prod.fst).Nodup := by
  unfold addVideoMatch
  by_cases hf : (vmapFind m vm.videoId).isSome
  · rw [if_pos hf, vmapUpdate_keys]
    exact h
  · rw [if_neg hf, vmapUpdate_keys]
    have hnot : vm.videoId ∉ m.map Prod.fst :=
      (vmapFind_none_iff m vm.videoId).mp (Option.not_isSome_iff_eq_none.mp hf)
    simp [List.nodup_append, h, hnot]

theorem foldFM_keys_nodup (l : List FrameMatch) :
    ∀ m : VMap, (m.map Prod.fst).Nodup → ((l.foldl addFrameMatch m).map Prod.fst).Nodup := by
  induction l with
  | nil => intro m h; exact h
  | cons f l ih =>
      intro m h
      rw [List.foldl_cons]
      exact ih _ (addFrameMatch_keys_nodup m f h)

theorem foldVM_keys_nodup (l : List VideoMatch) :
    ∀ m : VMap, (m.map Prod.fst).Nodup → ((l.foldl addVideoMatch m).map Prod.fst).Nodup := by
  induction l with
  | nil => intro m h; exact h
  | cons v l ih =>
      intro m h
      rw [List.foldl_cons]
      exact ih _ (addVideoMatch_keys_nodup m v h)

theorem vmapFind_of_mem (m : VMap) :
    ∀ (k : String) (d : VideoData), (m.map Prod.fst).Nodup → (k, d) ∈ m →
      vmapFind m k = some d := by
  induction m with
  | nil => intro k d _ hmem; cases hmem
  | cons p m ih =>
      intro k d hnd hmem
      obtain ⟨a, e⟩ := p
      rw [List.map_cons, List.nodup_cons] at hnd
      rcases List.mem_cons.mp hmem with h | h
      · injection h with h1 h2
        subst h1
        subst h2
        rw [vmapFind_cons, if_pos rfl]
      · have hka : ¬a = k := by
          intro hak
          subst hak
          exact hnd.1 (List.mem_map.mpr ⟨(a, d), h, rfl⟩)
        rw [vmapFind_cons, if_neg hka]
        exact ih k d hnd.2 h

theorem aggregate_entry_spec (fm : List FrameMatch) (vm : List VideoMatch)
    (p : String × VideoData)
    (hp : p ∈ vm.foldl addVideoMatch (fm.foldl addFrameMatch ([] : VMap))) :
    p.2.totalScore = sumScores (fm.filter (fun f => f.videoId = p.1)) +
      sumVMScores (vm.filter (fun v => v.videoId = p.1)) ∧
    p.2.frames = fm.filter (fun f => f.videoId = p.1) := by
  have hnd : ((vm.foldl addVideoMatch (fm.foldl addFrameMatch ([] : VMap))).map
      Prod.fst).Nodup :=
    foldVM_keys_nodup vm _ (foldFM_keys_nodup fm [] (by simp))
  have hfind : vmapFind (vm.foldl addVideoMatch (fm.foldl addFrameMatch ([] : VMap))) p.1 =
      some p.2 :=
    vmapFind_of_mem _ p.1 p.2 hnd (by rw [Prod.mk.eta]; exact hp)
  rw [foldVM_find] at hfind
  rw [foldFM_find] at hfind
  have hnil : vmapFind ([] : VMap) p.1 = none := rfl
  rw [hnil] at hfind
  by_cases hF : (fm.filter (fun f => f.videoId = p.1)).isEmpty
  · rw [if_pos hF] at hfind
    dsimp only at hfind
    by_cases hV : (vm.filter (fun v => v.videoId = p.1)).isEmpty
    · rw [if_pos hV] at hfind
      exact absurd hfind (by simp)
    · rw [if_neg hV] at hfind
      injection hfind with h
      have hFnil : fm.filter (fun f => f.videoId = p.1) = [] := List.isEmpty_iff.mp hF
      constructor
      · rw [← h, applyVM_totalScore, hFnil]
        show (0 : ℚ) + sumVMScores _ = sumScores [] + sumVMScores _
        rfl
      · rw [← h, applyVM_frames, hFnil]
        rfl
  · rw [if_neg hF] at hfind
    dsimp only at hfind
    injection hfind with h
    constructor
    · rw [← h, applyVM_totalScore, applyFM_totalScore]
      show (0 : ℚ) + sumScores _ + sumVMScores _ = _
      ring
    · rw [← h, applyVM_frames, applyFM_frames]
      show ([] : List FrameMatch) ++ _ = _
      simp

/-- C1: every match contributes its raw similarity times its channel weight,
and a video's `overallScore` is the unweighted sum of the weighted
contributions of all its matches (frame- and video-level); in particular,
with the default weights a video matched on image 0.9 and keywords 0.8
scores 0.555, a video matched only on summary 0.95 scores 0.1425, and the
first is ranked above the second. -/
theorem c1_fusion_is_weighted_sum :
    (∀ (fm : List FrameMatch) (vm : List VideoMatch) (r : SearchResult),
      r ∈ aggregateResults fm vm →
      r.overallScore = sumScores (fm.filter (fun f => f.videoId = r.videoId)) +
        sumVMScores (vm.filter (fun v => v.videoId = r.videoId))) ∧
    ((9 : ℚ)/10 * DEFAULT_WEIGHTS.image + 8/10 * DEFAULT_WEIGHTS.keywords = 555/1000) ∧
    ((95 : ℚ)/100 * DEFAULT_WEIGHTS.summary = 1425/10000) ∧
    ((hybridSearch "query" none none c1Env).map (fun o =>
        (o.totalMatches, o.results.map (fun r => (r.videoId, r.overallScore)))) =
      .ok (3, [("A", 555/1000), ("B", 1425/10000)])) := by
  refine ⟨?_, by norm_num [DEFAULT_WEIGHTS], by norm_num [DEFAULT_WEIGHTS], ?_⟩
  · intro fm vm r hr
    unfold aggregateResults at hr
    obtain ⟨p, hp, rfl⟩ := List.mem_map.mp hr
    exact (aggregate_entry_spec fm vm p hp).1
  · norm_num +decide [hybridSearch, c1Env, DEFAULT_WEIGHTS, Bind.bind, Except.bind, Pure.pure,
      Except.pure, Except.map, frameChannel, videoChannel, aggregateResults, addFrameMatch,
      addVideoMatch, vmapFind, vmapUpdate, bumpF, bumpV, emptyVD, toSearchResult,
      clusterTimestamps, stableSort, insertSorted, clusterWalk, closeCluster, clusterToRange,
      sumScores, setAdd, setOfList, List.filterMap, List.foldl]

/-- Witness for C1's general fusion conjunct at a one-match input. -/
theorem c1_fusion_is_weighted_sum_witness :
    c1wResult ∈ aggregateResults [c1wFM] [] ∧
    c1wResult.overallScore =
      sumScores (([c1wFM] : List FrameMatch).filter (fun f => f.videoId = c1wResult.videoId)) +
      sumVMScores (([] : List VideoMatch).filter (fun v => v.videoId = c1wResult.videoId)) :=
  ⟨by simp [aggregateResults, addFrameMatch, vmapFind, vmapUpdate, emptyVD, bumpF,
      toSearchResult, clusterTimestamps, stableSort, insertSorted, clusterWalk, closeCluster,
      clusterToRange, sumScores, setAdd, setOfList, c1wFM, c1wResult],
    c1_fusion_is_weighted_sum.1 [c1wFM] [] c1wResult
      (by simp [aggregateResults, addFrameMatch, vmapFind, vmapUpdate, emptyVD, bumpF,
        toSearchResult, clusterTimestamps, stableSort, insertSorted, clusterWalk, closeCluster,
        clusterToRange, sumScores, setAdd, setOfList, c1wFM, c1wResult])⟩

theorem closeCluster_good {g : ℚ} {cur : RawCluster} (h : GoodRaw g cur) :
    GoodCluster g (closeCluster cur) :=
  ⟨h.1, h.2.1, rfl, h.2.2⟩

theorem goodRaw_extend {g : ℚ} {cur : RawCluster} {f : FrameMatch}
    (h : GoodRaw g cur) (hf : f.timestamp - cur.endTime ≤ g) :
    GoodRaw g { cur with endTime := f.timestamp, frames := cur.frames ++ [f] } := by
  obtain ⟨h1, h2, h3⟩ := h
  refine ⟨?_, ?_, ?_⟩
  · cases hc : cur.frames with
    | nil => rw [hc] at h1; simp at h1
    | cons a l => rw [hc] at h1; simpa using h1
  · show ((cur.frames ++ [f]).getLast?).map (fun f => f.timestamp) = some f.timestamp
    rw [List.getLast?_concat]
    rfl
  · refine List.Chain'.append h3 (List.chain'_singleton f) ?_
    intro x hx y hy
    have hx' : cur.frames.getLast? = some x := hx
    have hy' : y = f := by symm; simpa using hy
    have hxe : x.timestamp = cur.endTime := by
      rw [hx'] at h2
      simpa using h2
    subst hy'
    show y.timestamp - x.timestamp ≤ g
    rw [hxe]
    exact hf

theorem clusterWalk_good (g : ℚ) :
    ∀ (rest : List FrameMatch) (cur : RawCluster), GoodRaw g cur →
      ∀ c ∈ clusterWalk g cur rest, GoodCluster g c := by
  intro rest
  induction rest with
  | nil =>
      intro cur h c hc
      simp only [clusterWalk, List.mem_singleton] at hc
      subst hc
      exact closeCluster_good h
  | cons f rest ih =>
      intro cur h c hc
      simp only [clusterWalk] at hc
      by_cases hgap : f.timestamp - cur.endTime ≤ g
      · rw [if_pos hgap] at hc
        exact ih _ (goodRaw_extend h hgap) c hc
      · rw [if_neg hgap] at hc
        rcases List.mem_cons.mp hc with h1 | h1
        · subst h1
          exact closeCluster_good h
        · exact ih _ ⟨by simp, by simp, List.chain'_singleton f⟩ c h1

theorem clusterWalk_join (g : ℚ) :
    ∀ (rest : List FrameMatch) (cur : RawCluster),
      ((clusterWalk g cur rest).map (fun c => c.frames)).flatten = cur.frames ++ rest := by
  intro rest
  induction rest with
  | nil =>
      intro cur
      simp [clusterWalk, closeCluster]
  | cons f rest ih =>
      intro cur
      simp only [clusterWalk]
      by_cases hgap : f.timestamp - cur.endTime ≤ g
      · rw [if_pos hgap, ih]
        simp
      · rw [if_neg hgap]
        rw [List.map_cons, List.flatten_cons, ih]
        simp [closeCluster]

theorem clusterWalk_head_start (g : ℚ) :
    ∀ (rest : List FrameMatch) (cur : RawCluster),
      ∃ c cs, clusterWalk g cur rest = c :: cs ∧ c.startTime = cur.startTime := by
  intro rest
  induction rest with
  | nil =>
      intro cur
      exact ⟨closeCluster cur, [], rfl, rfl⟩
  | cons f rest ih =>
      intro cur
      by_cases hgap : f.timestamp - cur.endTime ≤ g
      · obtain ⟨c, cs, h1, h2⟩ := ih { cur with endTime := f.timestamp, frames := cur.frames ++ [f] }
        refine ⟨c, cs, ?_, h2⟩
        simp only [clusterWalk]
        rw [if_pos hgap, h1]
      · refine ⟨closeCluster cur,
          clusterWalk g { startTime := f.timestamp, endTime := f.timestamp, frames := [f] } rest,
          ?_, rfl⟩
        simp only [clusterWalk]
        rw [if_neg hgap]

theorem clusterWalk_chain (g : ℚ) :
    ∀ (rest : List FrameMatch) (cur : RawCluster),
      List.Chain' (fun c₁ c₂ => ¬(c₂.startTime - c₁.endTime ≤ g)) (clusterWalk g cur rest) := by
  intro rest
  induction rest with
  | nil =>
      intro cur
      simp only [clusterWalk]
      exact List.chain'_singleton _
  | cons f rest ih =>
      intro cur
      simp only [clusterWalk]
      by_cases hgap : f.timestamp - cur.endTime ≤ g
      · rw [if_pos hgap]
        exact ih _
      · rw [if_neg hgap]
        obtain ⟨c, cs, h1, h2⟩ := clusterWalk_head_start g rest
          { startTime := f.timestamp, endTime := f.timestamp, frames := [f] }
        rw [h1]
        refine List.chain'_cons.mpr ⟨?_, h1 ▸ ih _⟩
        show ¬(c.startTime - (closeCluster cur).endTime ≤ g)
        rw [h2]
        exact hgap

theorem clusterTimestamps_good (frames : List FrameMatch) (g : ℚ) :
    ∀ c ∈ clusterTimestamps frames g, GoodCluster g c := by
  intro c hc
  unfold clusterTimestamps at hc
  cases h : stableSort (fun a b => a.timestamp ≤ b.timestamp) frames with
  | nil =>
      rw [h] at hc
      cases hc
  | cons f rest =>
      rw [h] at hc
      exact clusterWalk_good g rest _ ⟨by simp, by simp, List.chain'_singleton f⟩ c hc

theorem clusterTimestamps_join (frames : List FrameMatch) (g : ℚ) :
    ((clusterTimestamps frames g).map (fun c => c.frames)).flatten =
      stableSort (fun a b => a.timestamp ≤ b.timestamp) frames := by
  unfold clusterTimestamps
  cases h : stableSort (fun a b => a.timestamp ≤ b.timestamp) frames with
  | nil => simp
  | cons f rest =>
      rw [clusterWalk_join]
      rfl

theorem clusterTimestamps_chain (frames : List FrameMatch) (g : ℚ) :
    List.Chain' (fun c₁ c₂ => ¬(c₂.startTime - c₁.endTime ≤ g)) (clusterTimestamps frames g) := by
  unfold clusterTimestamps
  cases h : stableSort (fun a b => a.timestamp ≤ b.timestamp) frames with
  | nil => exact List.chain'_nil
  | cons f rest => exact clusterWalk_chain g rest _

theorem aggregate_matches_spec (fm : List FrameMatch) (vm : List VideoMatch) (r : SearchResult)
    (hr : r ∈ aggregateResults fm vm) :
    r.«matches» =
      (clusterTimestamps (fm.filter (fun f => f.videoId = r.videoId))).map clusterToRange := by
  unfold aggregateResults at hr
  obtain ⟨p, hp, rfl⟩ := List.mem_map.mp hr
  have h2 := (aggregate_entry_spec fm vm p hp).2
  have hid : (toSearchResult p).videoId = p.1 := rfl
  rw [hid]
  show (clusterTimestamps p.2.frames).map clusterToRange = _
  rw [h2]

/-- C2: temporal clustering sorts a video's frame matches by timestamp
ascending (stably) and walks them in order — the member lists of the produced
clusters concatenate back to exactly the sorted input; each cluster starts at
its first member's timestamp, ends at its last member's, has consecutive
members at most `maxGap` apart, and its `avgScore` is the arithmetic mean of
its members' weighted scores; consecutive clusters are separated by a gap
strictly greater than `maxGap`; the returned range's confidence is the
cluster mean, its preview/description come from the first member, and its
source set is the deduplicated union of the members' channels; and in
`aggregateResults` each video result's `matches` are exactly the clusters of
that video's frame matches.  In particular for timestamps `[0, 3, 9, 11, 30]`
with `maxGap = 5` the clusters are exactly `[(0,3), (9,11), (30,30)]`. -/
theorem c2_temporal_clustering :
    ((clusterTimestamps c2Sample 5).map (fun c => (c.startTime, c.endTime)) =
      [((0 : ℚ), (3 : ℚ)), (9, 11), (30, 30)]) ∧
    (∀ (frames : List FrameMatch) (g : ℚ),
      ((clusterTimestamps frames g).map (fun c => c.frames)).flatten =
        stableSort (fun a b => a.timestamp ≤ b.timestamp) frames) ∧
    (∀ (frames : List FrameMatch) (g : ℚ) (c : Cluster),
      c ∈ clusterTimestamps frames g → GoodCluster g c) ∧
    (∀ (frames : List FrameMatch) (g : ℚ),
      List.Chain' (fun c₁ c₂ => ¬(c₂.startTime - c₁.endTime ≤ g))
        (clusterTimestamps frames g)) ∧
    (∀ c : Cluster,
      (clusterToRange c).confidence = c.avgScore ∧
      (clusterToRange c).previewUrl = c.frames.head?.bind (fun f => f.thumbnailUrl) ∧
      (clusterToRange c).description = c.frames.head?.bind (fun f => f.description) ∧
      (clusterToRange c).sources = setOfList (c.frames.map (fun f => f.source))) ∧
    (∀ (fm : List FrameMatch) (vm : List VideoMatch) (r : SearchResult),
      r ∈ aggregateResults fm vm →
      r.«matches» =
        (clusterTimestamps (fm.filter (fun f => f.videoId = r.videoId))).map clusterToRange) := by
  refine ⟨?_, clusterTimestamps_join, fun frames g c => clusterTimestamps_good frames g c,
    clusterTimestamps_chain, fun c => ⟨rfl, rfl, rfl, rfl⟩, aggregate_matches_spec⟩
  norm_num +decide [clusterTimestamps, stableSort, insertSorted, clusterWalk, closeCluster,
    sumScores, c2Sample]

/-- Witness for C2's hypothesis-bearing conjuncts at a one-match input. -/
theorem c2_temporal_clustering_witness :
    (c2wCluster ∈ clusterTimestamps [c2wFM] 5 ∧ GoodCluster 5 c2wCluster) ∧
    (c2wSR ∈ aggregateResults [c2wFM] [] ∧
      c2wSR.«matches» =
        (clusterTimestamps (([c2wFM] : List FrameMatch).filter
          (fun f => f.videoId = c2wSR.videoId))).map clusterToRange) :=
  ⟨⟨by simp [clusterTimestamps, stableSort, insertSorted, clusterWalk, closeCluster, sumScores,
        c2wFM, c2wCluster],
    c2_temporal_clustering.2.2.1 [c2wFM] 5 c2wCluster
      (by simp [clusterTimestamps, stableSort, insertSorted, clusterWalk, closeCluster,
        sumScores, c2wFM, c2wCluster])⟩,
   ⟨by simp [aggregateResults, addFrameMatch, vmapFind, vmapUpdate, emptyVD, bumpF,
        toSearchResult, clusterTimestamps, stableSort, insertSorted, clusterWalk, closeCluster,
        clusterToRange, sumScores, setAdd, setOfList, c2wFM, c2wSR],
    c2_temporal_clustering.2.2.2.2.2 [c2wFM] [] c2wSR
      (by simp [aggregateResults, addFrameMatch, vmapFind, vmapUpdate, emptyVD, bumpF,
        toSearchResult, clusterTimestamps, stableSort, insertSorted, clusterWalk, closeCluster,
        clusterToRange, sumScores, setAdd, setOfList, c2wFM, c2wSR])⟩⟩

end Fid
